import Mathlib

/-!
The rsyslog REST API: decoder, filter builder, parameter validation, session
store and authentication middleware.

A shallow embedding of `internal/models/log_entry.go`,
`internal/models/responses.go`, `internal/filters/builder.go`,
`internal/filters/validators.go`, `internal/auth/auth.go`,
`internal/auth/session.go` and `internal/middleware/auth.go`, followed by the
properties proved about them.

Go values are embedded as follows.
* `int` is a 64-bit two's-complement integer: a Lean `Int` together with the
  explicit wrap-around `GoInt.wrap` wherever an operation can overflow.
* `string` is a Lean `String`; `[]T` is a `List T` (a nil slice and an empty
  slice are both `[]`, as both have length 0).
* `interface{}` query arguments are the sum type `filters.Arg`.
* a function returning `(..., error)` returns an `Except`.
* a Go map is a lookup function; a method that mutates its receiver returns
  the new receiver next to its result.
* clock readings, random bytes, SHA-256 and RFC3339 parsing are parameters.
-/

namespace Rsyslox

/-! ## Go `int` arithmetic -/

namespace GoInt

/-- Smallest value of a 64-bit Go `int`. -/
def minInt : Int := -9223372036854775808

/-- Largest value of a 64-bit Go `int`. -/
def maxInt : Int := 9223372036854775807

/-- Values representable in a Go `int`. -/
def InRange (x : Int) : Prop := minInt ≤ x ∧ x ≤ maxInt

instance instDecidableInRange (x : Int) : Decidable (InRange x) :=
  inferInstanceAs (Decidable (minInt ≤ x ∧ x ≤ maxInt))

/-- Two's-complement wrap-around of a mathematical integer into 64 bits. -/
def wrap (x : Int) : Int :=
  (x + 9223372036854775808) % 18446744073709551616 - 9223372036854775808

/-- Go `a + b` on `int`. -/
def add (a b : Int) : Int := wrap (a + b)

/-- Go `a * b` on `int`. -/
def mul (a b : Int) : Int := wrap (a * b)

/-- Go `a / b` on `int` (quotient truncated toward zero). -/
def quo (a b : Int) : Int := wrap (Int.tdiv a b)

/-- Go `a % b` on `int` (remainder with the sign of the dividend). -/
def rem (a b : Int) : Int := Int.tmod a b

end GoInt

/-! ## `internal/models/log_entry.go` -/

namespace models

/-- Severity label table (RFC 5424), `SeverityLabels`. -/
def SeverityLabels : List String :=
  ["Emergency", "Alert", "Critical", "Error", "Warning", "Notice", "Info", "Debug"]

/-- Facility label table (RFC 5424), `FacilityLabels`. -/
def FacilityLabels : List String :=
  ["kern", "user", "mail", "daemon", "auth", "syslog", "lpr", "news",
   "uucp", "cron", "authpriv", "ftp", "ntp", "audit", "alert", "clock",
   "local0", "local1", "local2", "local3", "local4", "local5", "local6", "local7"]

/-- The two columns of a `SystemEvents` row that `ScanFromRows` interprets:
the stored `Facility` (scanned into `e.Facility`) and the stored `Priority`
(scanned into the local `rawPriority`).  All other columns are copied into
the entry verbatim and take no part in the normalisation. -/
structure RawRow where
  Facility : Int
  Priority : Int
  deriving DecidableEq, Repr

/-- The fields of `LogEntry` that `ScanFromRows` computes. -/
structure LogEntry where
  Facility : Int := 0
  FacilityLabel : String := ""
  Priority : Int := 0
  Severity : Int := 0
  SeverityLabel : String := ""
  deriving DecidableEq, Repr

/-- The `// Normalize priority format` block of `ScanFromRows`
(log_entry.go lines 65-75). -/
def normalizePriority (e : LogEntry) (rawPriority : Int) : LogEntry :=
  if rawPriority > 7 then
    let e1 := { e with Priority := rawPriority }
    let e2 := { e1 with Severity := GoInt.rem rawPriority 8 }
    { e2 with Facility := GoInt.quo rawPriority 8 }
  else
    let e1 := { e with Severity := rawPriority }
    { e1 with Priority := GoInt.add (GoInt.mul e1.Facility 8) rawPriority }

/-- The `// Set labels` block of `ScanFromRows` (log_entry.go lines 77-83). -/
def setLabels (e : LogEntry) : LogEntry :=
  let e1 :=
    if e.Severity ≥ 0 ∧ e.Severity < 8 then
      { e with SeverityLabel := SeverityLabels.getD e.Severity.toNat "" }
    else e
  if e1.Facility ≥ 0 ∧ e1.Facility < 24 then
    { e1 with FacilityLabel := FacilityLabels.getD e1.Facility.toNat "" }
  else e1

/-- `(*LogEntry).ScanFromRows`: `rows` is the outcome of `rows.Scan`, either
an error or the scanned columns. -/
def ScanFromRows (e : LogEntry) (rows : Except String RawRow) : Except String LogEntry :=
  match rows with
  | .error err => .error err
  | .ok row =>
    let e0 := { e with Facility := row.Facility }
    .ok (setLabels (normalizePriority e0 row.Priority))

end models

/-! ## `internal/models/responses.go` -/

namespace models

/-- `APIError`: a structured API error response. -/
structure APIError where
  Code : String
  Message : String
  Details : String
  Field : String
  deriving DecidableEq, Repr

/-- `ErrCodeInvalidParameter`. -/
def ErrCodeInvalidParameter : String := "INVALID_PARAMETER"

/-- `ErrCodeUnauthorized`. -/
def ErrCodeUnauthorized : String := "UNAUTHORIZED"

/-- `ErrCodeInvalidDateRange`. -/
def ErrCodeInvalidDateRange : String := "INVALID_DATE_RANGE"

/-- `ErrCodeInvalidSeverity`. -/
def ErrCodeInvalidSeverity : String := "INVALID_SEVERITY"

/-- `ErrCodeInvalidFacility`. -/
def ErrCodeInvalidFacility : String := "INVALID_FACILITY"

/-- `NewAPIError` creates a new `APIError`. -/
def NewAPIError (code message : String) : APIError :=
  { Code := code, Message := message, Details := "", Field := "" }

/-- `(*APIError).WithDetails`. -/
def APIError.WithDetails (e : APIError) (details : String) : APIError :=
  { e with Details := details }

/-- `(*APIError).WithField`. -/
def APIError.WithField (e : APIError) (field : String) : APIError :=
  { e with Field := field }

end models

/-! ## Go standard library functions used by the filters -/

namespace strings

/-- `strings.Join`: the elements separated by `sep`. -/
def Join (elems : List String) (sep : String) : String :=
  match elems with
  | [] => ""
  | [a] => a
  | a :: rest => rest.foldl (fun b s => b ++ sep ++ s) a

/-- `strings.HasPrefix`: `s` begins with `pre`. -/
def HasPrefix (s pre : String) : Bool := pre.data.isPrefixOf s.data

/-- `strings.TrimPrefix`: `s` without the leading `pre`, or `s` itself when it
does not begin with `pre`. -/
def TrimPrefix (s pre : String) : String :=
  if HasPrefix s pre then String.mk (s.data.drop pre.data.length) else s

/-- The loop of `strings.LastIndex`: scans `s` from position `i`, `last` being
the latest position found so far at which `substr` begins. -/
def lastIndexLoop (substr : List Char) : List Char → Nat → Int → Int
  | [], i, last => if substr = [] then (i : Int) else last
  | c :: cs, i, last =>
    lastIndexLoop substr cs (i + 1) (if substr.isPrefixOf (c :: cs) then (i : Int) else last)

/-- `strings.LastIndex`: the position of the last instance of `substr` in `s`,
or -1 if `substr` is not present.  Positions count characters; the callers
only slice the same string at the position returned. -/
def LastIndex (s substr : String) : Int := lastIndexLoop substr.data s.data 0 (-1)

/-- The Go slice expression `s[:idx]`. -/
def sliceTo (s : String) (idx : Int) : String := String.mk (s.data.take idx.toNat)

/-- `strings.Trim`: `s` with all leading and trailing characters contained in
`cutset` removed. -/
def Trim (s cutset : String) : String :=
  String.mk (((s.data.dropWhile (fun c => cutset.data.contains c)).reverse.dropWhile
    (fun c => cutset.data.contains c)).reverse)

end strings

namespace hex

/-- The lower-case hexadecimal digit of a value below 16. -/
def digit (n : Nat) : Char := "0123456789abcdef".data.getD n '0'

/-- `hex.EncodeToString`: two lower-case hexadecimal digits for each byte. -/
def EncodeToString (src : List Nat) : String :=
  String.mk (src.flatMap (fun b => [digit (b / 16 % 16), digit (b % 16)]))

end hex

namespace strconv

/-- Value of a decimal digit. -/
def digitVal (c : Char) : Option Nat :=
  if '0' ≤ c ∧ c ≤ '9' then some (c.toNat - 48) else none

/-- Accumulates a run of decimal digits; `none` on any other character. -/
def parseDigits : List Char → Nat → Option Nat
  | [], acc => some acc
  | c :: cs, acc =>
    match digitVal c with
    | none => none
    | some d => parseDigits cs (acc * 10 + d)

/-- `strconv.Atoi` on a 64-bit platform: an optional sign followed by one or
more decimal digits whose value fits a Go `int`.  The callers in this
repository only test the returned error against `nil`, so a failure is
`none`. -/
def Atoi (s : String) : Option Int :=
  let signed : Bool × List Char :=
    match s.data with
    | '-' :: rest => (true, rest)
    | '+' :: rest => (false, rest)
    | cs => (false, cs)
  if signed.2 = [] then none
  else
    match parseDigits signed.2 0 with
    | none => none
    | some un =>
      if signed.1 then
        if un > 9223372036854775808 then none else some (-(un : Int))
      else
        if un ≥ 9223372036854775808 then none else some (un : Int)

end strconv

/-! ## `internal/filters/builder.go` -/

namespace filters

/-- A `time.Time` instant, as nanoseconds since the Unix epoch. -/
structure Time where
  unixNano : Int
  deriving DecidableEq, Repr

/-- `time.Hour`, a `time.Duration` in nanoseconds. -/
def Hour : Int := 3600000000000

/-- Largest `time.Duration`. -/
def maxDuration : Int := 9223372036854775807

/-- Smallest `time.Duration`. -/
def minDuration : Int := -9223372036854775808

/-- `t.After(u)`: the instant `t` is after `u`. -/
def Time.After (t u : Time) : Bool := decide (t.unixNano > u.unixNano)

/-- `t.Add(d)`: the instant `t + d`. -/
def Time.Add (t : Time) (d : Int) : Time := { unixNano := t.unixNano + d }

/-- `t.Sub(u)`: the duration `t - u`, saturated to the largest or smallest
`time.Duration` when it is not representable. -/
def Time.Sub (t u : Time) : Int :=
  if t.unixNano - u.unixNano > maxDuration then maxDuration
  else if t.unixNano - u.unixNano < minDuration then minDuration
  else t.unixNano - u.unixNano

/-- A query argument, an element of `[]interface{}`. -/
inductive Arg where
  | null
  | time (t : Time)
  | int (v : Int)
  | str (s : String)
  deriving DecidableEq, Repr

/-- `Builder` constructs SQL WHERE clauses and arguments for filtering. -/
structure Builder where
  conditions : List String
  args : List Arg
  deriving DecidableEq, Repr

/-- `New` creates a new filter builder. -/
def New : Builder := { conditions := [], args := [] }

/-- The Go loop `for i, v := range xs { dst[i] = f i v }`. -/
def assignEach {α β : Type} (dst : List β) (xs : List α) (f : Nat → α → β) : List β :=
  xs.enum.foldl (fun d iv => d.set iv.1 (f iv.1 iv.2)) dst

/-- The placeholders of an IN list: `make([]string, n)` followed by
`for i := range placeholders { placeholders[i] = "?" }`. -/
def makePlaceholders (n : Nat) : List String :=
  let placeholders := List.replicate n ""
  assignEach placeholders placeholders (fun _ _ => "?")

/-- `AddDateRange` adds a date range filter. -/
def AddDateRange (b : Builder) (start end_ : Time) : Builder :=
  let b1 := { b with conditions := b.conditions ++ ["ReceivedAt BETWEEN ? AND ?"] }
  { b1 with args := b1.args ++ [Arg.time start, Arg.time end_] }

/-- `AddSeverityFilter` adds a severity filter using Priority MOD 8. -/
def AddSeverityFilter (b : Builder) (values : List Int) : Builder :=
  if values.length = 0 then b
  else
    let placeholders := makePlaceholders values.length
    let b1 := { b with conditions := b.conditions ++
      ["Priority MOD 8 IN (" ++ strings.Join placeholders "," ++ ")"] }
    values.foldl (fun b2 v => { b2 with args := b2.args ++ [Arg.int v] }) b1

/-- `AddMultiValueFilter` adds a multi-value IN filter for a column. -/
def AddMultiValueFilter (b : Builder) (column : String) (values : List Arg) : Builder :=
  if values.length = 0 then b
  else
    let placeholders := makePlaceholders values.length
    let b1 := { b with conditions := b.conditions ++
      [column ++ " IN (" ++ strings.Join placeholders "," ++ ")"] }
    { b1 with args := b1.args ++ values }

/-- `AddStringMultiValue` adds a multi-value string IN filter. -/
def AddStringMultiValue (b : Builder) (column : String) (values : List String) : Builder :=
  if values.length = 0 then b
  else
    let ivals := assignEach (List.replicate values.length Arg.null) values (fun _ v => Arg.str v)
    AddMultiValueFilter b column ivals

/-- `AddIntMultiValue` adds a multi-value integer IN filter. -/
def AddIntMultiValue (b : Builder) (column : String) (values : List Int) : Builder :=
  if values.length = 0 then b
  else
    let ivals := assignEach (List.replicate values.length Arg.null) values (fun _ v => Arg.int v)
    AddMultiValueFilter b column ivals

/-- One iteration of the loop of `AddMessageSearch`: `conds[i] = "Message LIKE ?"`
and `b.args = append(b.args, "%"+term+"%")`. -/
def messageSearchStep (st : List String × Builder) (it : Nat × String) : List String × Builder :=
  (st.1.set it.1 "Message LIKE ?",
   { st.2 with args := st.2.args ++ [Arg.str ("%" ++ it.2 ++ "%")] })

/-- `AddMessageSearch` adds LIKE search on the Message column; multiple terms
use OR. -/
def AddMessageSearch (b : Builder) (terms : List String) : Builder :=
  if terms.length = 0 then b
  else
    let st := terms.enum.foldl messageSearchStep (List.replicate terms.length "", b)
    { st.2 with conditions := st.2.conditions ++ ["(" ++ strings.Join st.1 " OR " ++ ")"] }

/-- `Build` returns the WHERE clause and args; the clause is "1=1" when there
are no filters. -/
def Build (b : Builder) : String × List Arg :=
  if b.conditions.length = 0 then ("1=1", b.args)
  else (strings.Join b.conditions " AND ", b.args)

/-! ### Call sequences on a builder -/

/-- One call of an add operation, with its actual parameters. -/
inductive Op where
  | dateRange (start end_ : Time)
  | severity (values : List Int)
  | multiValue (column : String) (values : List Arg)
  | stringMulti (column : String) (values : List String)
  | intMulti (column : String) (values : List Int)
  | messageSearch (terms : List String)
  deriving DecidableEq, Repr

/-- Performs the call `op` on the builder `b`. -/
def Op.run (b : Builder) : Op → Builder
  | .dateRange s e => AddDateRange b s e
  | .severity vs => AddSeverityFilter b vs
  | .multiValue c vs => AddMultiValueFilter b c vs
  | .stringMulti c vs => AddStringMultiValue b c vs
  | .intMulti c vs => AddIntMultiValue b c vs
  | .messageSearch ts => AddMessageSearch b ts

/-- Performs a sequence of calls, in order, on the builder `b`. -/
def runAll (b : Builder) (ops : List Op) : Builder := ops.foldl Op.run b

/-- Number of `?` characters in a string. -/
def placeholderCount (s : String) : Nat := s.data.count '?'

/-- The column name of the call, if any, contains no `?` character. -/
def Op.columnHasNoPlaceholder : Op → Prop
  | .multiValue c _ => placeholderCount c = 0
  | .stringMulti c _ => placeholderCount c = 0
  | .intMulti c _ => placeholderCount c = 0
  | .dateRange _ _ => True
  | .severity _ => True
  | .messageSearch _ => True

instance instDecidableColumnHasNoPlaceholder :
    (op : Op) → Decidable op.columnHasNoPlaceholder
  | .multiValue c _ => inferInstanceAs (Decidable (placeholderCount c = 0))
  | .stringMulti c _ => inferInstanceAs (Decidable (placeholderCount c = 0))
  | .intMulti c _ => inferInstanceAs (Decidable (placeholderCount c = 0))
  | .dateRange _ _ => inferInstanceAs (Decidable True)
  | .severity _ => inferInstanceAs (Decidable True)
  | .messageSearch _ => inferInstanceAs (Decidable True)

/-! ### The builder as the specification describes it -/

/-- An IN list of `n` placeholders: `?,?,...,?`. -/
def inList (n : Nat) : String := strings.Join (List.replicate n "?") ","

/-- The clause a call contributes: none for an empty input, one otherwise. -/
def Op.specClauses : Op → List String
  | .dateRange _ _ => ["ReceivedAt BETWEEN ? AND ?"]
  | .severity vs =>
    if vs = [] then [] else ["Priority MOD 8 IN (" ++ inList vs.length ++ ")"]
  | .multiValue c vs => if vs = [] then [] else [c ++ " IN (" ++ inList vs.length ++ ")"]
  | .stringMulti c vs => if vs = [] then [] else [c ++ " IN (" ++ inList vs.length ++ ")"]
  | .intMulti c vs => if vs = [] then [] else [c ++ " IN (" ++ inList vs.length ++ ")"]
  | .messageSearch ts =>
    if ts = [] then []
    else ["(" ++ strings.Join (List.replicate ts.length "Message LIKE ?") " OR " ++ ")"]

/-- The arguments a call contributes, in placeholder order. -/
def Op.specArgs : Op → List Arg
  | .dateRange s e => [Arg.time s, Arg.time e]
  | .severity vs => vs.map Arg.int
  | .multiValue _ vs => vs
  | .stringMulti _ vs => vs.map Arg.str
  | .intMulti _ vs => vs.map Arg.int
  | .messageSearch ts => ts.map (fun t => Arg.str ("%" ++ t ++ "%"))

/-- The result of `Build` after a sequence of calls, as the specification
describes it: the tautology and no arguments when no clause was contributed,
otherwise the contributed clauses joined by AND with the contributed
arguments in call order. -/
def specBuild (ops : List Op) : String × List Arg :=
  if ops.flatMap Op.specClauses = [] then ("1=1", [])
  else (strings.Join (ops.flatMap Op.specClauses) " AND ", ops.flatMap Op.specArgs)

/-! ### SQL evaluation of the severity clause -/

/-- MySQL `a MOD b` on integers: the remainder has the sign of the dividend. -/
def sqlMod (a b : Int) : Int := Int.tmod a b

/-- Truth of `Priority MOD 8 IN (?,...,?)` on a row whose stored Priority is
`priority`, the placeholders being bound to `args`. -/
def severityClauseHolds (priority : Int) (args : List Arg) : Prop :=
  Arg.int (sqlMod priority 8) ∈ args

/-- Truth of `Facility IN (?,...,?)` on a row whose stored Facility column is
`facility`, the placeholders being bound to `args`. -/
def facilityClauseHolds (facility : Int) (args : List Arg) : Prop :=
  Arg.int facility ∈ args

instance instDecidableFacilityClauseHolds (facility : Int) (args : List Arg) :
    Decidable (facilityClauseHolds facility args) :=
  inferInstanceAs (Decidable (Arg.int facility ∈ args))

/-! ## `internal/filters/validators.go` -/

open models in
/-- `ValidatePagination` validates limit and offset query parameters; the
result is `(limit, offset)`. -/
def ValidatePagination (limitStr offsetStr : String) : Except APIError (Int × Int) :=
  let defaultLimit : Int := 10
  let maxLimit : Int := 50000
  let offsetRes : Except APIError Int :=
    if offsetStr ≠ "" then
      match strconv.Atoi offsetStr with
      | none =>
        .error ((NewAPIError ErrCodeInvalidParameter
          ("'" ++ offsetStr ++ "' is not a valid integer")).WithField "offset")
      | some val =>
        if val < 0 then
          .error ((NewAPIError ErrCodeInvalidParameter "must be non-negative").WithField "offset")
        else .ok val
    else .ok 0
  match offsetRes with
  | .error err => .error err
  | .ok offset =>
    if limitStr ≠ "" then
      match strconv.Atoi limitStr with
      | none =>
        .error ((NewAPIError ErrCodeInvalidParameter
          ("'" ++ limitStr ++ "' is not a valid integer")).WithField "limit")
      | some val =>
        if val ≤ 0 then
          .error ((NewAPIError ErrCodeInvalidParameter "must be greater than 0").WithField "limit")
        else if val > maxLimit then
          .error (((NewAPIError ErrCodeInvalidParameter
            ("cannot exceed " ++ toString maxLimit)).WithField "limit").WithDetails
              ("Requested: " ++ toString val))
        else .ok (val, offset)
    else .ok (defaultLimit, offset)

open models in
/-- `ValidateDateRange` parses and validates start/end date strings (RFC3339).
The standard library is taken as parameters: `parse` is
`time.Parse(time.RFC3339, ·)` (`none` on error), `nowStart` and `nowEnd` are the
readings of `time.Now()` taken for the default start and the default end, and
`fmtDays d` is `fmt.Sprintf("%.1f", d.Hours()/24)` for a duration `d`. -/
def ValidateDateRange (parse : String → Option Time) (fmtDays : Int → String)
    (nowStart nowEnd : Time) (startDateStr endDateStr : String) :
    Except APIError (Time × Time) :=
  let startRes : Except APIError Time :=
    if startDateStr ≠ "" then
      match parse startDateStr with
      | none =>
        .error (((NewAPIError ErrCodeInvalidParameter "invalid format").WithField
          "start_date").WithDetails
            "Expected ISO 8601/RFC3339 format (e.g., 2025-02-15T10:00:00Z)")
      | some t => .ok t
    else .ok (nowStart.Add (-24 * Hour))
  match startRes with
  | .error err => .error err
  | .ok startDate =>
    let endRes : Except APIError Time :=
      if endDateStr ≠ "" then
        match parse endDateStr with
        | none =>
          .error (((NewAPIError ErrCodeInvalidParameter "invalid format").WithField
            "end_date").WithDetails
              "Expected ISO 8601/RFC3339 format (e.g., 2025-02-15T10:00:00Z)")
        | some t => .ok t
      else .ok nowEnd
    match endRes with
    | .error err => .error err
    | .ok endDate =>
      if startDate.After endDate then
        .error (NewAPIError ErrCodeInvalidDateRange "start_date cannot be after end_date")
      else if endDate.Sub startDate > 90 * 24 * Hour then
        .error ((NewAPIError ErrCodeInvalidDateRange
          "date range cannot exceed 90 days").WithDetails
            ("Requested range: " ++ fmtDays (endDate.Sub startDate) ++ " days"))
      else .ok (startDate, endDate)

open models in
/-- The loop of `ValidateSeverities` over the remaining `params`, `result`
holding the values appended so far. -/
def severitiesLoop : List String → List Int → Except APIError (List Int)
  | [], result => .ok result
  | p :: rest, result =>
    match strconv.Atoi p with
    | none =>
      .error ((NewAPIError ErrCodeInvalidSeverity
        ("'" ++ p ++ "' is not a valid severity (0-7)")).WithField "Severity")
    | some v =>
      if v < 0 ∨ v > 7 then
        .error ((NewAPIError ErrCodeInvalidSeverity
          ("'" ++ p ++ "' is not a valid severity (0-7)")).WithField "Severity")
      else severitiesLoop rest (result ++ [v])

/-- `ValidateSeverities` parses a slice of severity string values (0-7). -/
def ValidateSeverities (params : List String) : Except models.APIError (List Int) :=
  if params.length = 0 then .ok []
  else severitiesLoop params []

open models in
/-- The loop of `ValidateFacilities` over the remaining `params`, `result`
holding the values appended so far. -/
def facilitiesLoop : List String → List Int → Except APIError (List Int)
  | [], result => .ok result
  | p :: rest, result =>
    match strconv.Atoi p with
    | none =>
      .error ((NewAPIError ErrCodeInvalidFacility
        ("'" ++ p ++ "' is not a valid facility (0-23)")).WithField "Facility")
    | some v =>
      if v < 0 ∨ v > 23 then
        .error ((NewAPIError ErrCodeInvalidFacility
          ("'" ++ p ++ "' is not a valid facility (0-23)")).WithField "Facility")
      else facilitiesLoop rest (result ++ [v])

/-- `ValidateFacilities` parses a slice of facility string values (0-23). -/
def ValidateFacilities (params : List String) : Except models.APIError (List Int) :=
  if params.length = 0 then .ok []
  else facilitiesLoop params []

/-- A sample value for the `parse` parameter, reading three timestamps:
1 January 2025, and the instants 90 and 91 days later. -/
def sampleParse (str : String) : Option Time :=
  if str = "2025-01-01T00:00:00Z" then some { unixNano := 1735689600000000000 }
  else if str = "2025-04-01T00:00:00Z" then some { unixNano := 1743465600000000000 }
  else if str = "2025-04-02T00:00:00Z" then some { unixNano := 1743552000000000000 }
  else none

/-- A sample value for the `fmtDays` parameter, exact on whole days. -/
def sampleFmtDays (d : Int) : String := toString (d / (24 * Hour)) ++ ".0"

/-- The string `p` parses (`strconv.Atoi`) as an integer between `lo` and `hi`. -/
def ParsesInto (lo hi : Int) (p : String) : Prop :=
  ∃ v, strconv.Atoi p = some v ∧ lo ≤ v ∧ v ≤ hi

end filters

/-! ## `internal/config/types.go` -/

namespace config

/-- `ReadOnlyKey` is a named API key for read-only access; the key is stored
as a SHA-256 hex hash. -/
structure ReadOnlyKey where
  Name : String
  KeyHash : String
  deriving DecidableEq, Repr

/-- `AuthConfig` holds authentication settings. -/
structure AuthConfig where
  AdminPasswordHash : String := ""
  ReadOnlyKeys : List ReadOnlyKey := []
  deriving DecidableEq, Repr

/-- `ServerConfig` holds HTTP server settings (the fields written by the
setup handler). -/
structure ServerConfig where
  Host : String := ""
  Port : Int := 0
  UseSSL : Bool := false
  deriving DecidableEq, Repr

/-- `DatabaseConfig` holds database connection settings. -/
structure DatabaseConfig where
  Host : String := ""
  Port : Int := 0
  Name : String := ""
  User : String := ""
  Password : String := ""
  deriving DecidableEq, Repr

/-- The parts of `Config` read and written by the authentication code and the
handlers. -/
structure Config where
  Server : ServerConfig := {}
  Database : DatabaseConfig := {}
  Auth : AuthConfig := {}
  deriving DecidableEq, Repr

end config

/-! ## `internal/auth/auth.go` and `internal/auth/session.go` -/

namespace auth

open filters (Time)

/-- `Role` represents the access level of an authenticated caller. -/
inductive Role where
  | RoleNone
  | RoleReadOnly
  | RoleAdmin
  deriving DecidableEq, Repr

/-- `Manager` handles password hashing and API key validation. -/
structure Manager where
  cfg : config.Config
  deriving DecidableEq, Repr

/-- `hashKey` returns the hex-encoded SHA-256 hash of a key.  The digest
function `hex.EncodeToString(sha256.Sum256(·))` is the parameter `sha256Hex`. -/
def hashKey (sha256Hex : String → String) (key : String) : String := sha256Hex key

/-- The loop of `VerifyReadOnlyKey` over the stored keys: the name of the
first key whose hash is `h`, the empty string when there is none. -/
def verifyLoop (h : String) : List config.ReadOnlyKey → String
  | [] => ""
  | k :: rest => if k.KeyHash = h then k.Name else verifyLoop h rest

/-- `(*Manager).VerifyReadOnlyKey` checks whether the given API key matches
any stored read-only key. -/
def Manager.VerifyReadOnlyKey (sha256Hex : String → String) (m : Manager) (key : String) :
    String :=
  let h := hashKey sha256Hex key
  verifyLoop h m.cfg.Auth.ReadOnlyKeys

/-- `GenerateReadOnlyKey` generates a new random API key and its SHA-256 hash;
`randRead` is the outcome of `rand.Read(raw)`, an error or the 32 random
bytes.  The result is `(plaintext, hash)`. -/
def GenerateReadOnlyKey (sha256Hex : String → String) (randRead : Except String (List Nat)) :
    Except String (String × String) :=
  match randRead with
  | .error err => .error ("failed to generate key: " ++ err)
  | .ok raw =>
    let plaintext := hex.EncodeToString raw
    let hash := hashKey sha256Hex plaintext
    .ok (plaintext, hash)

/-- `sessionTTL = 8 * time.Hour`. -/
def sessionTTL : Int := 8 * filters.Hour

/-- The `session` record. -/
structure session where
  token : String
  expiresAt : Time
  deriving DecidableEq, Repr

/-- `SessionStore`: the Go map `sessions map[string]session` as a lookup
function.  Every operation holds the mutex for its whole body, so each
operation is one atomic step on the store. -/
structure SessionStore where
  sessions : String → Option session

/-- Go `delete(m, key)`. -/
def mapDelete (m : String → Option session) (key : String) : String → Option session :=
  fun k => if k = key then none else m k

/-- Go `m[key] = v`. -/
def mapAssign (m : String → Option session) (key : String) (v : session) :
    String → Option session :=
  fun k => if k = key then some v else m k

/-- `NewSessionStore` creates an empty `SessionStore`. -/
def NewSessionStore : SessionStore := { sessions := fun _ => none }

/-- `(*SessionStore).Create` generates a new session token and stores it.
`now` is the reading of `time.Now()` and `randRead` the outcome of
`rand.Read(raw)`, an error or the 32 random bytes. -/
def SessionStore.Create (s : SessionStore) (now : Time) (randRead : Except String (List Nat)) :
    Except String String × SessionStore :=
  match randRead with
  | .error err => (.error err, s)
  | .ok raw =>
    let token := hex.EncodeToString raw
    (.ok token,
     { s with sessions :=
        mapAssign s.sessions token { token := token, expiresAt := now.Add sessionTTL } })

/-- `(*SessionStore).Validate` checks whether a token is valid and not
expired; `now` is the reading of `time.Now()`. -/
def SessionStore.Validate (s : SessionStore) (now : Time) (token : String) :
    Bool × SessionStore :=
  match s.sessions token with
  | none => (false, s)
  | some sess =>
    if now.After sess.expiresAt then
      (false, { s with sessions := mapDelete s.sessions token })
    else (true, s)

/-- `(*SessionStore).Revoke` deletes a session token (logout). -/
def SessionStore.Revoke (s : SessionStore) (token : String) : SessionStore :=
  { s with sessions := mapDelete s.sessions token }

/-- The body of the `range s.sessions` loop of `cleanupLoop` on the entry of
`token`, if the map still has one. -/
def cleanupStep (now : Time) (m : String → Option session) (token : String) :
    String → Option session :=
  match m token with
  | none => m
  | some sess => if now.After sess.expiresAt then mapDelete m token else m

/-- One tick of `cleanupLoop`: `now` is the reading of `time.Now()` and
`order` the order in which the `range` loop visits the keys of the map. -/
def SessionStore.cleanupPass (s : SessionStore) (now : Time) (order : List String) :
    SessionStore :=
  { s with sessions := order.foldl (cleanupStep now) s.sessions }

/-- `(*SessionStore).cleanupLoop` over a finite run of ticks, each with its
clock reading and visiting order. -/
def SessionStore.cleanupLoop (s : SessionStore) (ticks : List (Time × List String)) :
    SessionStore :=
  ticks.foldl (fun st tick => st.cleanupPass tick.1 tick.2) s

end auth

/-! ## `internal/middleware/auth.go` -/

namespace middleware

open auth models

/-- The parts of `http.Request` read by the middleware: `Header k` is
`r.Header.Get(k)`, the empty string for an absent header. -/
structure Request where
  Header : String → String
  RemoteAddr : String := ""
  Method : String := "GET"

/-- What a middleware does with a request: it calls `next.ServeHTTP`, or it
answers itself through `respondError` with a status and an error body. -/
inductive Outcome where
  | next
  | responded (status : Nat) (err : APIError)
  deriving DecidableEq, Repr

/-- `http.StatusUnauthorized`. -/
def StatusUnauthorized : Nat := 401

/-- `extractToken` extracts the session token from the request headers. -/
def extractToken (r : Request) : String :=
  let t := r.Header "X-Session-Token"
  if t ≠ "" then t
  else
    let a := r.Header "Authorization"
    if strings.HasPrefix a "Bearer " then strings.TrimPrefix a "Bearer "
    else ""

/-- `resolveRole` determines the `auth.Role` for a request; the store is
returned as `Validate` leaves it. -/
def resolveRole (sha256Hex : String → String) (r : Request) (mgr : Manager)
    (store : SessionStore) (now : filters.Time) : Role × SessionStore :=
  let token := extractToken r
  let checked : Bool × SessionStore :=
    if token ≠ "" then store.Validate now token else (false, store)
  if checked.1 then (Role.RoleAdmin, checked.2)
  else
    let apiKey := r.Header "X-API-Key"
    if apiKey ≠ "" ∧ mgr.VerifyReadOnlyKey sha256Hex apiKey ≠ "" then
      (Role.RoleReadOnly, checked.2)
    else (Role.RoleNone, checked.2)

/-- A request carrying the given `X-Session-Token`, `Authorization` and
`X-API-Key` header values and no other header. -/
def requestWith (sessionToken authorization apiKey : String) : Request :=
  { Header := fun k =>
      if k = "X-Session-Token" then sessionToken
      else if k = "Authorization" then authorization
      else if k = "X-API-Key" then apiKey
      else "" }

/-- `AuthReadOnly`: the middleware accepting admin session tokens and
read-only API keys. -/
def AuthReadOnly (sha256Hex : String → String) (mgr : Manager) (store : SessionStore)
    (now : filters.Time) (r : Request) : Outcome × SessionStore :=
  let resolved := resolveRole sha256Hex r mgr store now
  if resolved.1 = Role.RoleNone then
    (Outcome.responded StatusUnauthorized
      ((NewAPIError ErrCodeUnauthorized "Authentication required").WithDetails
        "Provide X-API-Key header or X-Session-Token header"),
     resolved.2)
  else (Outcome.next, resolved.2)

/-- `AuthAdmin`: the middleware accepting admin session tokens only. -/
def AuthAdmin (store : SessionStore) (now : filters.Time) (r : Request) :
    Outcome × SessionStore :=
  let token := extractToken r
  let checked : Bool × SessionStore :=
    if token = "" then (false, store) else store.Validate now token
  if token = "" ∨ checked.1 = false then
    (Outcome.responded StatusUnauthorized
      ((NewAPIError ErrCodeUnauthorized "Admin authentication required").WithDetails
        "Provide a valid X-Session-Token header"),
     checked.2)
  else (Outcome.next, checked.2)

/-- `http.StatusForbidden`. -/
def StatusForbidden : Nat := 403

/-- `isLocalhost` reports whether the request originates from localhost. -/
def isLocalhost (r : Request) : Bool :=
  let host := r.RemoteAddr
  let idx := strings.LastIndex host ":"
  let host1 := if idx ≠ -1 then strings.sliceTo host idx else host
  let host2 := strings.Trim host1 "[]"
  decide (host2 = "127.0.0.1") || decide (host2 = "::1") || decide (host2 = "localhost")

/-- `LocalhostOnly`: the middleware restricting access to localhost. -/
def LocalhostOnly (r : Request) : Outcome :=
  if !isLocalhost r then
    Outcome.responded StatusForbidden
      (NewAPIError "FORBIDDEN" "This endpoint is only accessible from localhost")
  else Outcome.next

/-- The host part of a peer address as the specification describes it: the
text before the last `:` (the whole address when it has no `:`), with the
surrounding square brackets removed. -/
def hostPart (addr : String) : String :=
  let before : List Char :=
    match addr.data.reverse.dropWhile (fun c => c != ':') with
    | [] => addr.data
    | _ :: rest => rest.reverse
  let isBracket : Char → Bool := fun c => c == '[' || c == ']'
  String.mk (((before.dropWhile isBracket).reverse.dropWhile isBracket).reverse)

end middleware

/-! ## `internal/config/crypto.go` -/

namespace config

/-- `encPrefix`. -/
def encPrefix : String := "enc:"

/-- The AEAD returned by `cipher.NewGCM`.  Byte slices are lists of bytes;
`Seal nonce plaintext` is `gcm.Seal(nil, nonce, []byte(plaintext), nil)` and
`Open nonce ciphertext` is `string(gcm.Open(nil, nonce, ciphertext, nil))`. -/
structure AEAD where
  NonceSize : Nat
  Seal : List Nat → String → List Nat
  Open : List Nat → List Nat → Except String String

/-- The cryptographic and encoding functions of the standard library, taken as
parameters: `Sum256 s` is `sha256.Sum256([]byte(s))`, `NewCipher` is
`aes.NewCipher`, `NewGCM` is `cipher.NewGCM`, and `EncodeToString` and
`DecodeString` are those of `base64.StdEncoding`. -/
structure Primitives where
  Sum256 : String → List Nat
  NewCipher : List Nat → Except String (List Nat)
  NewGCM : List Nat → Except String AEAD
  EncodeToString : List Nat → String
  DecodeString : String → Except String (List Nat)

/-- `deriveKey` derives a 32-byte AES key from the machine ID; `machineID` is
the outcome of `readMachineID()`, the stable host identifier or an error. -/
def deriveKey (P : Primitives) (machineID : Except String String) : Except String (List Nat) :=
  match machineID with
  | .error err => .error ("failed to read machine ID: " ++ err)
  | .ok id => .ok (P.Sum256 (id ++ "rsyslox-v1-config-key"))

/-- `EncryptPassword` encrypts a plaintext password using AES-256-GCM;
`nonceRead` is the outcome of `io.ReadFull(rand.Reader, nonce)`, an error or
the bytes of the nonce. -/
def EncryptPassword (P : Primitives) (machineID : Except String String)
    (nonceRead : Except String (List Nat)) (plaintext : String) : Except String String :=
  match deriveKey P machineID with
  | .error err => .error err
  | .ok key =>
    match P.NewCipher key with
    | .error err => .error ("failed to create cipher: " ++ err)
    | .ok block =>
      match P.NewGCM block with
      | .error err => .error ("failed to create GCM: " ++ err)
      | .ok gcm =>
        match nonceRead with
        | .error err => .error ("failed to generate nonce: " ++ err)
        | .ok nonce =>
          let ciphertext := nonce ++ gcm.Seal nonce plaintext
          let encoded := P.EncodeToString ciphertext
          .ok (encPrefix ++ encoded)

/-- `DecryptPassword` decrypts a password encrypted by `EncryptPassword`; a
value without the `enc:` prefix is returned as it is. -/
def DecryptPassword (P : Primitives) (machineID : Except String String) (value : String) :
    Except String String :=
  if !strings.HasPrefix value encPrefix then .ok value
  else
    let encoded := strings.TrimPrefix value encPrefix
    match P.DecodeString encoded with
    | .error err => .error ("failed to decode encrypted password: " ++ err)
    | .ok ciphertext =>
      match deriveKey P machineID with
      | .error err => .error err
      | .ok key =>
        match P.NewCipher key with
        | .error err => .error ("failed to create cipher: " ++ err)
        | .ok block =>
          match P.NewGCM block with
          | .error err => .error ("failed to create GCM: " ++ err)
          | .ok gcm =>
            let nonceSize := gcm.NonceSize
            if ciphertext.length < nonceSize then .error "ciphertext too short"
            else
              let nonce := ciphertext.take nonceSize
              let sealed := ciphertext.drop nonceSize
              match gcm.Open nonce sealed with
              | .error err => .error ("failed to decrypt password: " ++ err)
              | .ok pt => .ok pt

/-- `IsEncrypted` reports whether a password value is already encrypted. -/
def IsEncrypted (value : String) : Bool := strings.HasPrefix value encPrefix

end config

/-! ## `internal/handlers/admin/keys.go` -/

namespace unicode

/-- `unicode.IsSpace`: the Unicode white space characters. -/
def IsSpace (c : Char) : Bool :=
  let n := c.toNat
  (9 ≤ n && n ≤ 13) || n == 32 || n == 133 || n == 160 || n == 5760 ||
    (8192 ≤ n && n ≤ 8202) || n == 8232 || n == 8233 || n == 8239 || n == 8287 || n == 12288

end unicode

namespace strings

/-- `strings.TrimSpace`: `s` with all leading and trailing white space removed. -/
def TrimSpace (s : String) : String :=
  String.mk (((s.data.dropWhile unicode.IsSpace).reverse.dropWhile unicode.IsSpace).reverse)

end strings

namespace models

/-- `NewValidationError` creates a field-level validation error. -/
def NewValidationError (field message : String) : APIError :=
  { Code := ErrCodeInvalidParameter, Field := field, Message := message, Details := "" }

end models

namespace admin

open models

/-- `CreateKeyRequest` is the payload for POST /api/admin/keys. -/
structure CreateKeyRequest where
  Name : String
  deriving DecidableEq, Repr

/-- What a handler writes: an error through `respondError`, or the
`CreateKeyResponse` through `respondJSON`. -/
inductive Response where
  | error (status : Nat) (err : APIError)
  | created (status : Nat) (name key message : String)
  deriving DecidableEq, Repr

/-- The duplicate-name loop of `handleCreate`: some stored key has the name. -/
def nameTaken (name : String) : List config.ReadOnlyKey → Bool
  | [] => false
  | k :: rest => if k.Name = name then true else nameTaken name rest

/-- `(*KeysHandler).handleCreate` on the configuration `cfg`.  `body` is the
outcome of decoding the JSON body, `randRead` the outcome of `rand.Read` in
`GenerateReadOnlyKey`, and `save` the outcome of `config.Save`.  The result
is the response and the configuration as the handler leaves it. -/
def handleCreate (sha256Hex : String → String) (cfg : config.Config)
    (body : Except String CreateKeyRequest) (randRead : Except String (List Nat))
    (save : Except String Unit) : Response × config.Config :=
  match body with
  | .error _ =>
    (Response.error 400 (NewAPIError ErrCodeInvalidParameter "Invalid JSON body"), cfg)
  | .ok req =>
    let name := strings.TrimSpace req.Name
    if name = "" then
      (Response.error 400 (NewValidationError "name" "Key name is required"), cfg)
    else if nameTaken name cfg.Auth.ReadOnlyKeys then
      (Response.error 409 (NewAPIError "CONFLICT" "A key with this name already exists"), cfg)
    else
      match auth.GenerateReadOnlyKey sha256Hex randRead with
      | .error _ =>
        (Response.error 500 (NewAPIError "INTERNAL_ERROR" "Failed to generate key"), cfg)
      | .ok (plaintext, hash) =>
        let cfg1 : config.Config :=
          { cfg with Auth := { cfg.Auth with
              ReadOnlyKeys := cfg.Auth.ReadOnlyKeys ++ [{ Name := name, KeyHash := hash }] } }
        match save with
        | .error _ =>
          (Response.error 500 (NewAPIError "INTERNAL_ERROR" "Failed to save configuration"),
           cfg1)
        | .ok _ =>
          (Response.created 201 name plaintext
            "Store this key securely — it will not be shown again.", cfg1)

end admin

/-! ## Password hashing: `golang.org/x/crypto/bcrypt` and `internal/auth/auth.go` -/

namespace strings

/-- The Go conversion `[]byte(s)`: the UTF-8 bytes of `s`. -/
def bytesOf (s : String) : List Nat := s.toUTF8.data.toList.map UInt8.toNat

end strings

namespace bcrypt

/-- The key bytes that bcrypt reads.  The library appends a NUL byte to the
password and runs the Blowfish key schedule on it, which reads 72 bytes of the
key, starting again at its first byte when the key is shorter. -/
def keyBytes (password : List Nat) : List Nat :=
  let ckey := password ++ [0]
  (List.range 72).map (fun i => ckey.getD (i % ckey.length) 0)

/-- The parts of the bcrypt library taken as parameters: `digest key cost salt`
is the Blowfish-based digest of the 72 key bytes, and `encode` and `decode`
write and read the hash string that carries the cost, the salt and the
digest. -/
structure Params where
  digest : List Nat → Nat → List Nat → List Nat
  encode : Nat → List Nat → List Nat → String
  decode : String → Option (Nat × List Nat × List Nat)

/-- `bcrypt.GenerateFromPassword`: refuses a password longer than 72 bytes;
`saltRead` is the outcome of reading the random salt. -/
def GenerateFromPassword (P : Params) (saltRead : Except String (List Nat))
    (password : List Nat) (cost : Nat) : Except String String :=
  if password.length > 72 then .error "bcrypt: password length exceeds 72 bytes"
  else
    match saltRead with
    | .error err => .error err
    | .ok salt => .ok (P.encode cost salt (P.digest (keyBytes password) cost salt))

/-- `bcrypt.CompareHashAndPassword`: recomputes the digest of `password` with
the cost and salt of the stored hash and compares. -/
def CompareHashAndPassword (P : Params) (hashedPassword : String) (password : List Nat) :
    Except String Unit :=
  match P.decode hashedPassword with
  | none => .error "crypto/bcrypt: hashedSecret too short to be a bcrypted password"
  | some (cost, salt, d) =>
    if P.digest (keyBytes password) cost salt = d then .ok ()
    else .error "crypto/bcrypt: hashedPassword is not the hash of the given password"

end bcrypt

namespace auth

/-- `bcryptCost`. -/
def bcryptCost : Nat := 12

/-- `HashAdminPassword` hashes a plaintext password using bcrypt. -/
def HashAdminPassword (P : bcrypt.Params) (saltRead : Except String (List Nat))
    (plaintext : String) : Except String String :=
  match bcrypt.GenerateFromPassword P saltRead (strings.bytesOf plaintext) bcryptCost with
  | .error err => .error ("failed to hash password: " ++ err)
  | .ok hash => .ok hash

/-- `(*Manager).VerifyAdminPassword` checks a plaintext password against the
stored bcrypt hash. -/
def Manager.VerifyAdminPassword (P : bcrypt.Params) (m : Manager) (plaintext : String) : Bool :=
  match bcrypt.CompareHashAndPassword P m.cfg.Auth.AdminPasswordHash
      (strings.bytesOf plaintext) with
  | .error _ => false
  | .ok _ => true

end auth

/-! ## `internal/handlers/setup/setup.go` and `internal/server/server.go` -/

namespace setup

open models

/-- `SetupRequest` is the payload sent by the setup wizard on first run. -/
structure SetupRequest where
  DBHost : String := ""
  DBPort : Int := 0
  DBName : String := ""
  DBUser : String := ""
  DBPassword : String := ""
  AdminPassword : String := ""
  ServerHost : String := ""
  ServerPort : Int := 0
  UseSSL : Bool := false
  deriving DecidableEq, Repr

/-- What the setup handler writes: an error through `respondError`, the
prefill values (built from the environment and the server settings), or the
`SetupResponse` after a successful setup. -/
inductive Response where
  | error (status : Nat) (err : APIError)
  | prefill
  | done (status : Nat) (message : String)
  deriving DecidableEq, Repr

/-- `validateSetupRequest`: `none` stands for the `nil` error. -/
def validateSetupRequest (req : SetupRequest) : Option APIError :=
  if req.DBHost = "" then some (NewValidationError "db_host" "Database host is required")
  else if req.DBName = "" then some (NewValidationError "db_name" "Database name is required")
  else if req.DBUser = "" then some (NewValidationError "db_user" "Database user is required")
  else if req.DBPassword = "" then
    some (NewValidationError "db_password" "Database password is required")
  else if (strings.bytesOf req.AdminPassword).length < 12 then
    some (NewValidationError "admin_password" "Admin password must be at least 12 characters")
  else none

/-- The outcomes of the system calls made while a submission is handled: the
salt read by bcrypt, the machine ID, the nonce read by `EncryptPassword` and
the result of `config.Save`. -/
structure Effects where
  saltRead : Except String (List Nat)
  machineID : Except String String
  nonceRead : Except String (List Nat)
  save : Except String Unit

/-- `(*Handler).handleSubmit` processes the setup form submission; `body` is
the outcome of decoding the JSON body.  The result is the response and the
configuration as the handler leaves it.  The restart of the process after a
successful setup is not part of the model. -/
def handleSubmit (B : bcrypt.Params) (P : config.Primitives) (fx : Effects)
    (cfg : config.Config) (body : Except String SetupRequest) : Response × config.Config :=
  match body with
  | .error _ =>
    (Response.error 400 (NewAPIError ErrCodeInvalidParameter "Invalid JSON body"), cfg)
  | .ok req =>
    match validateSetupRequest req with
    | some err => (Response.error 400 err, cfg)
    | none =>
      match auth.HashAdminPassword B fx.saltRead req.AdminPassword with
      | .error _ =>
        (Response.error 500 (NewAPIError "INTERNAL_ERROR" "Failed to hash password"), cfg)
      | .ok hash =>
        match config.EncryptPassword P fx.machineID fx.nonceRead req.DBPassword with
        | .error _ =>
          (Response.error 500
            (NewAPIError "INTERNAL_ERROR" "Failed to encrypt database password"), cfg)
        | .ok encPass =>
          let cfg1 : config.Config :=
            { cfg with
              Database := { Host := req.DBHost, Port := req.DBPort, Name := req.DBName,
                            User := req.DBUser, Password := encPass }
              Auth := { cfg.Auth with AdminPasswordHash := hash } }
          let cfg2 : config.Config :=
            if req.ServerHost ≠ "" then
              { cfg1 with Server := { cfg1.Server with Host := req.ServerHost } }
            else cfg1
          let cfg3 : config.Config :=
            if req.ServerPort > 0 then
              { cfg2 with Server := { cfg2.Server with Port := req.ServerPort } }
            else cfg2
          let cfg4 : config.Config :=
            { cfg3 with Server := { cfg3.Server with UseSSL := req.UseSSL } }
          match fx.save with
          | .error err =>
            (Response.error 500
              (NewAPIError "INTERNAL_ERROR" ("Failed to save configuration: " ++ err)), cfg4)
          | .ok _ => (Response.done 200 "Setup complete. Restarting…", cfg4)

/-- `(*Handler).ServeHTTP` processes GET (prefill) and POST (submit) requests
for the setup wizard. -/
def ServeHTTP (B : bcrypt.Params) (P : config.Primitives) (fx : Effects)
    (cfg : config.Config) (r : middleware.Request) (body : Except String SetupRequest) :
    Response × config.Config :=
  if r.Method = "GET" then (Response.prefill, cfg)
  else if r.Method = "POST" then handleSubmit B P fx cfg body
  else
    (Response.error 405 (NewAPIError "METHOD_NOT_ALLOWED" "Only GET and POST are allowed"), cfg)

end setup

namespace server

open models

/-- What the route `/api/setup` does with a request: the CORS middleware
answers a preflight itself, the localhost gate refuses it, or the setup
handler serves it. -/
inductive Served where
  | preflight (status : Nat)
  | refused (status : Nat) (err : APIError)
  | handled (resp : setup.Response)
  deriving DecidableEq, Repr

/-- The route `/api/setup` as `(*Server).SetupRoutes` registers it: in setup
mode `cors(logging(setupHandler))`, otherwise
`cors(logging(localhostOnly(setupHandler)))`.  The CORS middleware answers an
`OPTIONS` request with 204 and passes every other request on; the logging
middleware passes every request on.  Response headers are not modelled. -/
def serveSetup (setupMode : Bool) (B : bcrypt.Params) (P : config.Primitives)
    (fx : setup.Effects) (cfg : config.Config) (r : middleware.Request)
    (body : Except String setup.SetupRequest) : Served × config.Config :=
  if r.Method = "OPTIONS" then (Served.preflight 204, cfg)
  else if setupMode then
    let served := setup.ServeHTTP B P fx cfg r body
    (Served.handled served.1, served.2)
  else
    match middleware.LocalhostOnly r with
    | middleware.Outcome.responded status err => (Served.refused status err, cfg)
    | middleware.Outcome.next =>
      let served := setup.ServeHTTP B P fx cfg r body
      (Served.handled served.1, served.2)

end server

/-! ## Sample values for the parameters -/

namespace sample

/-- A list of numbers written in unary, each closed by `b`. -/
def encodeNats (bs : List Nat) : String :=
  String.mk (bs.flatMap (fun b => List.replicate b 'a' ++ ['b']))

/-- Reads back a list written by `encodeNats`; `n` counts the `a` seen since
the last `b`. -/
def decodeLoop : List Char → Nat → List Nat
  | [], _ => []
  | c :: cs, n => if c = 'a' then decodeLoop cs (n + 1) else n :: decodeLoop cs 0

/-- Inverse of `encodeNats`. -/
def decodeNats (s : String) : List Nat := decodeLoop s.data 0

/-- A sample AEAD with a two-byte nonce that leaves the plaintext readable. -/
def gcm : config.AEAD :=
  { NonceSize := 2
    Seal := fun _ plaintext => plaintext.data.map Char.toNat
    Open := fun _ sealed => .ok (String.mk (sealed.map Char.ofNat)) }

/-- Sample primitives satisfying the laws of the real ones. -/
def primitives : config.Primitives :=
  { Sum256 := fun s => s.data.map Char.toNat
    NewCipher := fun key => .ok key
    NewGCM := fun _ => .ok gcm
    EncodeToString := encodeNats
    DecodeString := fun s => .ok (decodeNats s) }

/-- Sample bcrypt parameters: the digest is the key bytes followed by the cost
and the salt, and the hash string lists cost, salt length, salt and digest. -/
def bcryptParams : bcrypt.Params :=
  { digest := fun key cost salt => key ++ cost :: salt
    encode := fun cost salt d => encodeNats (cost :: salt.length :: (salt ++ d))
    decode := fun str =>
      match decodeNats str with
      | cost :: n :: rest => some (cost, rest.take n, rest.drop n)
      | _ => none }

/-- A password of 72 bytes. -/
def password72 : String := String.mk (List.replicate 72 'a')

/-- Sample outcomes of the system calls of a setup submission: all succeed. -/
def effects : setup.Effects :=
  { saltRead := .ok [7], machineID := .ok "host-1", nonceRead := .ok [1, 2], save := .ok () }

/-- A sample loaded configuration, as the server holds it in normal mode. -/
def configured : config.Config :=
  { Database := { Host := "olddb", Port := 3306, Name := "Syslog", User := "rsyslog",
                  Password := "enc:old" }
    Auth := { AdminPasswordHash := "old-hash" } }

/-- A sample setup submission. -/
def setupRequest : setup.SetupRequest :=
  { DBHost := "db", DBPort := 3306, DBName := "Syslog", DBUser := "u", DBPassword := "pw",
    AdminPassword := "twelve chars" }

/-- The sample hash of the password `correct horse battery` with salt 7. -/
def adminHash : String :=
  bcryptParams.encode 12 [7]
    (bcryptParams.digest (bcrypt.keyBytes (strings.bytesOf "correct horse battery")) 12 [7])

end sample

/-! ## Properties of the decoder -/

section decoder

open models

theorem GoInt.wrap_of_inRange {x : Int} (h : GoInt.InRange x) : GoInt.wrap x = x := by
  unfold GoInt.InRange GoInt.minInt GoInt.maxInt at h
  unfold GoInt.wrap
  omega

theorem GoInt.wrap_wrap_add (a b : Int) :
    GoInt.wrap (GoInt.wrap a + b) = GoInt.wrap (a + b) := by
  unfold GoInt.wrap
  omega

theorem GoInt.rem_eight_of_nonneg {p : Int} (h : 0 ≤ p) : GoInt.rem p 8 = p % 8 := by
  unfold GoInt.rem
  exact Int.tmod_eq_emod h (by decide)

theorem GoInt.quo_eight_of_nonneg {p : Int} (h : 0 ≤ p) (hp : GoInt.InRange p) :
    GoInt.quo p 8 = p / 8 := by
  unfold GoInt.quo
  rw [Int.tdiv_eq_ediv h (by decide)]
  apply GoInt.wrap_of_inRange
  unfold GoInt.InRange GoInt.minInt GoInt.maxInt at *
  omega

theorem models.setLabels_fields (e : LogEntry) :
    (setLabels e).Priority = e.Priority ∧ (setLabels e).Severity = e.Severity ∧
      (setLabels e).Facility = e.Facility := by
  unfold setLabels
  by_cases h1 : e.Severity ≥ 0 ∧ e.Severity < 8 <;>
    by_cases h2 : e.Facility ≥ 0 ∧ e.Facility < 24 <;>
    simp [h1, h2]

theorem models.normalizePriority_labels (e : LogEntry) (p : Int) :
    (normalizePriority e p).SeverityLabel = e.SeverityLabel ∧
      (normalizePriority e p).FacilityLabel = e.FacilityLabel := by
  unfold normalizePriority
  split_ifs <;> exact ⟨rfl, rfl⟩

theorem models.normalizePriority_modern (e : LogEntry) (p : Int) (hp : GoInt.InRange p)
    (h : p > 7) :
    (normalizePriority e p).Priority = p ∧ (normalizePriority e p).Severity = p % 8 ∧
      (normalizePriority e p).Facility = p / 8 := by
  rw [normalizePriority, if_pos h]
  exact ⟨rfl, GoInt.rem_eight_of_nonneg (by omega), GoInt.quo_eight_of_nonneg (by omega) hp⟩

theorem models.normalizePriority_legacy (e : LogEntry) (p : Int) (h : ¬ p > 7) :
    (normalizePriority e p).Priority = GoInt.add (GoInt.mul e.Facility 8) p ∧
      (normalizePriority e p).Severity = p ∧ (normalizePriority e p).Facility = e.Facility := by
  rw [normalizePriority, if_neg h]
  exact ⟨rfl, rfl, rfl⟩

theorem models.scan_modern (e : LogEntry) (f p : Int) (hp : GoInt.InRange p) (h : p > 7) :
    ∃ e', ScanFromRows e (.ok ⟨f, p⟩) = .ok e' ∧
      e'.Priority = p ∧ e'.Severity = p % 8 ∧ e'.Facility = p / 8 := by
  refine ⟨_, rfl, ?_⟩
  obtain ⟨h1, h2, h3⟩ := setLabels_fields (normalizePriority { e with Facility := f } p)
  rw [h1, h2, h3]
  exact models.normalizePriority_modern _ p hp h

theorem models.scan_legacy (e : LogEntry) (f p : Int) (h : ¬ p > 7) :
    ∃ e', ScanFromRows e (.ok ⟨f, p⟩) = .ok e' ∧
      e'.Priority = GoInt.add (GoInt.mul f 8) p ∧ e'.Severity = p ∧ e'.Facility = f := by
  refine ⟨_, rfl, ?_⟩
  obtain ⟨h1, h2, h3⟩ := setLabels_fields (normalizePriority { e with Facility := f } p)
  rw [h1, h2, h3]
  exact models.normalizePriority_legacy _ p h

theorem models.setLabels_labels (e : LogEntry) :
    (¬ (0 ≤ e.Severity ∧ e.Severity ≤ 7) → (setLabels e).SeverityLabel = e.SeverityLabel) ∧
      (¬ (0 ≤ e.Facility ∧ e.Facility ≤ 23) → (setLabels e).FacilityLabel = e.FacilityLabel) := by
  unfold setLabels
  constructor
  · intro h
    have h1 : ¬ (e.Severity ≥ 0 ∧ e.Severity < 8) := by omega
    by_cases h2 : e.Facility ≥ 0 ∧ e.Facility < 24 <;> simp [h1, h2]
  · intro h
    have h2 : ¬ (e.Facility ≥ 0 ∧ e.Facility < 24) := by omega
    by_cases h1 : e.Severity ≥ 0 ∧ e.Severity < 8 <;> simp [h1, h2]

/-- C1: for every stored row (stored Facility `f` and raw Priority `p`, a Go
`int`), `ScanFromRows` returns an entry on which the Go expression
`Priority == Facility*8 + Severity` is true; whenever `Facility*8 + Severity`
is representable as a Go `int` the equality also holds over the integers. -/
theorem ScanFromRows_priority_invariant (e : LogEntry) (f p : Int) (hp : GoInt.InRange p) :
    ∃ e', ScanFromRows e (.ok ⟨f, p⟩) = .ok e' ∧
      e'.Priority = GoInt.add (GoInt.mul e'.Facility 8) e'.Severity ∧
      (GoInt.InRange (e'.Facility * 8 + e'.Severity) →
        e'.Priority = e'.Facility * 8 + e'.Severity) := by
  by_cases h : p > 7
  · obtain ⟨e', he, h1, h2, h3⟩ := models.scan_modern e f p hp h
    refine ⟨e', he, ?_, ?_⟩
    · rw [h1, h2, h3, GoInt.add, GoInt.mul, GoInt.wrap_wrap_add]
      rw [show p / 8 * 8 + p % 8 = p by omega]
      exact (GoInt.wrap_of_inRange hp).symm
    · intro _
      rw [h1, h2, h3]
      omega
  · obtain ⟨e', he, h1, h2, h3⟩ := models.scan_legacy e f p h
    refine ⟨e', he, ?_, ?_⟩
    · rw [h1, h2, h3]
    · intro hr
      rw [h2, h3] at hr
      rw [h1, h2, h3, GoInt.add, GoInt.mul, GoInt.wrap_wrap_add]
      exact GoInt.wrap_of_inRange hr

/-- Instance of C1 on the legacy row `(Facility = 3, Priority = 2)`. -/
theorem ScanFromRows_priority_invariant_witness :
    ∃ e', ScanFromRows {} (.ok ⟨3, 2⟩) = .ok e' ∧
      e'.Priority = GoInt.add (GoInt.mul e'.Facility 8) e'.Severity ∧
      (GoInt.InRange (e'.Facility * 8 + e'.Severity) →
        e'.Priority = e'.Facility * 8 + e'.Severity) :=
  ScanFromRows_priority_invariant {} 3 2 (by decide)

/-- C2: for every row whose raw Priority `p` is greater than 7, whatever the
stored Facility `f`, `ScanFromRows` yields `Severity = p mod 8`,
`Facility = p div 8` (the stored column is overridden) and `Priority = p`. -/
theorem ScanFromRows_modern (e : LogEntry) (f p : Int) (hp : GoInt.InRange p) (h : p > 7) :
    ∃ e', ScanFromRows e (.ok ⟨f, p⟩) = .ok e' ∧
      e'.Severity = p % 8 ∧ e'.Facility = p / 8 ∧ e'.Priority = p := by
  obtain ⟨e', he, h1, h2, h3⟩ := models.scan_modern e f p hp h
  exact ⟨e', he, h2, h3, h1⟩

/-- Instance of C2: raw Priority 26 with stored Facility 17 decodes to
Severity 2, Facility 3, Priority 26. -/
theorem ScanFromRows_modern_witness :
    ∃ e', ScanFromRows {} (.ok ⟨17, 26⟩) = .ok e' ∧
      e'.Severity = 2 ∧ e'.Facility = 3 ∧ e'.Priority = 26 :=
  ScanFromRows_modern {} 17 26 (by decide) (by decide)

/-- C3: for every row whose raw Priority `p` is in 0..7 and every stored
Facility `f`, `ScanFromRows` yields `Severity = p`, keeps `Facility = f`, and
sets `Priority` to the Go value of `f*8 + p`, which is the integer `f*8 + p`
whenever that is representable as a Go `int`. -/
theorem ScanFromRows_legacy (e : LogEntry) (f p : Int) (h0 : 0 ≤ p) (h7 : p ≤ 7) :
    ∃ e', ScanFromRows e (.ok ⟨f, p⟩) = .ok e' ∧
      e'.Severity = p ∧ e'.Facility = f ∧
      e'.Priority = GoInt.add (GoInt.mul f 8) p ∧
      (GoInt.InRange (f * 8 + p) → e'.Priority = f * 8 + p) := by
  have _ := h0
  obtain ⟨e', he, h1, h2, h3⟩ := models.scan_legacy e f p (by omega)
  refine ⟨e', he, h2, h3, h1, ?_⟩
  intro hr
  rw [h1, GoInt.add, GoInt.mul, GoInt.wrap_wrap_add]
  exact GoInt.wrap_of_inRange hr

/-- Instance of C3: the legacy row `(Facility = 3, Priority = 2)` decodes to
Severity 2, Facility 3, Priority 26. -/
theorem ScanFromRows_legacy_witness :
    ∃ e', ScanFromRows {} (.ok ⟨3, 2⟩) = .ok e' ∧
      e'.Severity = 2 ∧ e'.Facility = 3 ∧
      e'.Priority = GoInt.add (GoInt.mul 3 8) 2 ∧
      (GoInt.InRange (3 * 8 + 2) → e'.Priority = 3 * 8 + 2) :=
  ScanFromRows_legacy {} 3 2 (by decide) (by decide)

/-- C4 fails as stated: the rows `(Facility = 0, Priority = 200)`,
`(Facility = 100, Priority = 3)` and `(Facility = 0, Priority = -1)` decode to
Facility 25, Facility 100 and Severity -1, each outside its range, and the
corresponding label is left empty. -/
theorem ScanFromRows_range_counterexample :
    ScanFromRows {} (.ok ⟨0, 200⟩) =
        .ok { Facility := 25, FacilityLabel := "", Priority := 200, Severity := 0,
              SeverityLabel := "Emergency" } ∧
      ScanFromRows {} (.ok ⟨100, 3⟩) =
        .ok { Facility := 100, FacilityLabel := "", Priority := 803, Severity := 3,
              SeverityLabel := "Error" } ∧
      ScanFromRows {} (.ok ⟨0, -1⟩) =
        .ok { Facility := 0, FacilityLabel := "kern", Priority := -1, Severity := -1,
              SeverityLabel := "" } ∧
      ¬ ((25 : Int) ≤ 23) ∧ ¬ ((100 : Int) ≤ 23) ∧ ¬ ((0 : Int) ≤ -1) :=
  ⟨rfl, rfl, rfl, by decide, by decide, by decide⟩

/-- C4 (amended): for every stored row the decoded Severity is in 0..7 exactly
when the raw Priority is non-negative, and the decoded Facility is in 0..23
exactly when the raw Priority is in 8..191 or the raw Priority is at most 7
and the stored Facility is in 0..23; a decoded value outside its range leaves
the corresponding label as it was. -/
theorem ScanFromRows_ranges (e : LogEntry) (f p : Int) (hp : GoInt.InRange p) :
    ∃ e', ScanFromRows e (.ok ⟨f, p⟩) = .ok e' ∧
      ((0 ≤ e'.Severity ∧ e'.Severity ≤ 7) ↔ 0 ≤ p) ∧
      ((0 ≤ e'.Facility ∧ e'.Facility ≤ 23) ↔
        ((8 ≤ p ∧ p ≤ 191) ∨ (p ≤ 7 ∧ 0 ≤ f ∧ f ≤ 23))) ∧
      (¬ (0 ≤ e'.Severity ∧ e'.Severity ≤ 7) → e'.SeverityLabel = e.SeverityLabel) ∧
      (¬ (0 ≤ e'.Facility ∧ e'.Facility ≤ 23) → e'.FacilityLabel = e.FacilityLabel) := by
  refine ⟨setLabels (normalizePriority { e with Facility := f } p), rfl, ?_⟩
  obtain ⟨l1, l2⟩ := models.normalizePriority_labels { e with Facility := f } p
  have hm := models.normalizePriority_modern { e with Facility := f } p hp
  have hg := models.normalizePriority_legacy { e with Facility := f } p
  generalize normalizePriority { e with Facility := f } p = n at l1 l2 hm hg
  obtain ⟨hl1, hl2⟩ := models.setLabels_labels n
  obtain ⟨_, h2, h3⟩ := setLabels_fields n
  rw [h2, h3]
  have hl1' := fun h => (hl1 h).trans l1
  have hl2' := fun h => (hl2 h).trans l2
  refine ⟨?_, ?_, hl1', hl2'⟩
  · by_cases h : p > 7
    · obtain ⟨_, g2, _⟩ := hm h
      rw [g2]; omega
    · obtain ⟨_, g2, _⟩ := hg h
      rw [g2]; omega
  · by_cases h : p > 7
    · obtain ⟨_, _, g3⟩ := hm h
      rw [g3]; omega
    · obtain ⟨_, _, g3⟩ := hg h
      rw [g3]
      show (0 ≤ f ∧ f ≤ 23) ↔ _
      omega

/-- Instance of the amended C4 on the modern row `(Facility = 0, Priority = 26)`. -/
theorem ScanFromRows_ranges_witness :
    ∃ e', ScanFromRows {} (.ok ⟨0, 26⟩) = .ok e' ∧
      ((0 ≤ e'.Severity ∧ e'.Severity ≤ 7) ↔ (0 : Int) ≤ 26) ∧
      ((0 ≤ e'.Facility ∧ e'.Facility ≤ 23) ↔
        (((8 : Int) ≤ 26 ∧ (26 : Int) ≤ 191) ∨ ((26 : Int) ≤ 7 ∧ (0 : Int) ≤ 0 ∧ (0 : Int) ≤ 23))) ∧
      (¬ (0 ≤ e'.Severity ∧ e'.Severity ≤ 7) → e'.SeverityLabel = "") ∧
      (¬ (0 ≤ e'.Facility ∧ e'.Facility ≤ 23) → e'.FacilityLabel = "") :=
  ScanFromRows_ranges {} 0 26 (by decide)

end decoder

/-! ## Properties of the filter builder -/

section builder

open filters

theorem filters.assignEach_from {α β : Type} (f : Nat → α → β) (z : β) (xs : List α)
    (done : List β) :
    (xs.enumFrom done.length).foldl (fun d iv => d.set iv.1 (f iv.1 iv.2))
        (done ++ List.replicate xs.length z) =
      done ++ (xs.enumFrom done.length).map (fun iv => f iv.1 iv.2) := by
  induction xs generalizing done with
  | nil => simp
  | cons x xs ih =>
    have h := ih (done ++ [f done.length x])
    simp only [List.length_append, List.length_singleton, List.append_assoc,
      List.singleton_append] at h
    simp only [List.enumFrom_cons, List.foldl_cons, List.length_cons, List.replicate_succ,
      List.map_cons]
    rw [← h]
    congr 1
    simp

theorem filters.assignEach_replicate {α β : Type} (g : α → β) (z : β) (xs : List α) :
    assignEach (List.replicate xs.length z) xs (fun _ v => g v) = xs.map g := by
  have h := filters.assignEach_from (fun _ v => g v) z xs []
  simp only [List.length_nil, List.nil_append] at h
  unfold assignEach List.enum
  rw [h]
  clear h
  generalize 0 = k
  induction xs generalizing k with
  | nil => rfl
  | cons x xs ih => simp [List.enumFrom_cons, ih]

theorem filters.makePlaceholders_eq (n : Nat) : makePlaceholders n = List.replicate n "?" := by
  unfold makePlaceholders
  have h := filters.assignEach_replicate (fun _ : String => "?") "" (List.replicate n "")
  simp only [List.length_replicate] at h
  simp only [h]
  simp

theorem filters.messageSearch_loop (terms : List String) (k : Nat) (conds : List String)
    (b : Builder) :
    (terms.enumFrom k).foldl messageSearchStep (conds, b) =
      ((terms.enumFrom k).foldl (fun d iv => d.set iv.1 ((fun _ _ => "Message LIKE ?") iv.1 iv.2))
          conds,
        { b with args := b.args ++ terms.map (fun t => Arg.str ("%" ++ t ++ "%")) }) := by
  induction terms generalizing k conds b with
  | nil => simp
  | cons t ts ih =>
    simp only [List.enumFrom_cons, List.foldl_cons, List.map_cons]
    rw [messageSearchStep, ih]
    simp

theorem filters.severity_loop (values : List Int) (b : Builder) :
    values.foldl (fun b2 v => { b2 with args := b2.args ++ [Arg.int v] }) b =
      { b with args := b.args ++ values.map Arg.int } := by
  induction values generalizing b with
  | nil => simp
  | cons v vs ih =>
    simp only [List.foldl_cons, List.map_cons]
    rw [ih]
    simp

theorem filters.AddSeverityFilter_eq (b : Builder) (values : List Int) :
    AddSeverityFilter b values =
      { conditions := b.conditions ++ (Op.severity values).specClauses,
        args := b.args ++ (Op.severity values).specArgs } := by
  unfold AddSeverityFilter Op.specClauses Op.specArgs
  by_cases h : values = []
  · subst h; simp
  · have h' : ¬ values.length = 0 := fun hl => h (List.length_eq_zero.mp hl)
    simp only [if_neg h, if_neg h', filters.severity_loop, filters.makePlaceholders_eq, inList]

theorem filters.AddMultiValueFilter_eq (b : Builder) (column : String) (values : List Arg) :
    AddMultiValueFilter b column values =
      { conditions := b.conditions ++ (Op.multiValue column values).specClauses,
        args := b.args ++ (Op.multiValue column values).specArgs } := by
  unfold AddMultiValueFilter Op.specClauses Op.specArgs
  by_cases h : values = []
  · subst h; simp
  · have h' : ¬ values.length = 0 := fun hl => h (List.length_eq_zero.mp hl)
    simp only [if_neg h, if_neg h', filters.makePlaceholders_eq, inList]

theorem filters.AddStringMultiValue_eq (b : Builder) (column : String) (values : List String) :
    AddStringMultiValue b column values =
      { conditions := b.conditions ++ (Op.stringMulti column values).specClauses,
        args := b.args ++ (Op.stringMulti column values).specArgs } := by
  unfold AddStringMultiValue
  by_cases h : values = []
  · subst h; simp [Op.specClauses, Op.specArgs]
  · have h' : ¬ values.length = 0 := fun hl => h (List.length_eq_zero.mp hl)
    simp only [if_neg h', filters.assignEach_replicate, filters.AddMultiValueFilter_eq]
    simp [Op.specClauses, Op.specArgs, h]

theorem filters.AddIntMultiValue_eq (b : Builder) (column : String) (values : List Int) :
    AddIntMultiValue b column values =
      { conditions := b.conditions ++ (Op.intMulti column values).specClauses,
        args := b.args ++ (Op.intMulti column values).specArgs } := by
  unfold AddIntMultiValue
  by_cases h : values = []
  · subst h; simp [Op.specClauses, Op.specArgs]
  · have h' : ¬ values.length = 0 := fun hl => h (List.length_eq_zero.mp hl)
    simp only [if_neg h', filters.assignEach_replicate, filters.AddMultiValueFilter_eq]
    simp [Op.specClauses, Op.specArgs, h]

theorem filters.AddMessageSearch_eq (b : Builder) (terms : List String) :
    AddMessageSearch b terms =
      { conditions := b.conditions ++ (Op.messageSearch terms).specClauses,
        args := b.args ++ (Op.messageSearch terms).specArgs } := by
  unfold AddMessageSearch Op.specClauses Op.specArgs
  by_cases h : terms = []
  · subst h; simp
  · have h' : ¬ terms.length = 0 := fun hl => h (List.length_eq_zero.mp hl)
    have hc := filters.assignEach_replicate (fun _ : String => "Message LIKE ?") "" terms
    unfold assignEach at hc
    simp only [if_neg h, if_neg h', List.enum, filters.messageSearch_loop]
    simp only [List.enum] at hc
    rw [hc]
    simp

theorem filters.Op.run_eq (b : Builder) (op : Op) :
    op.run b =
      { conditions := b.conditions ++ op.specClauses, args := b.args ++ op.specArgs } := by
  cases op with
  | dateRange s e => simp [Op.run, AddDateRange, Op.specClauses, Op.specArgs]
  | severity vs => exact filters.AddSeverityFilter_eq b vs
  | multiValue c vs => exact filters.AddMultiValueFilter_eq b c vs
  | stringMulti c vs => exact filters.AddStringMultiValue_eq b c vs
  | intMulti c vs => exact filters.AddIntMultiValue_eq b c vs
  | messageSearch ts => exact filters.AddMessageSearch_eq b ts

theorem filters.runAll_eq (b : Builder) (ops : List Op) :
    runAll b ops =
      { conditions := b.conditions ++ ops.flatMap Op.specClauses,
        args := b.args ++ ops.flatMap Op.specArgs } := by
  unfold runAll
  induction ops generalizing b with
  | nil => simp
  | cons op ops ih =>
    rw [List.foldl_cons, ih, filters.Op.run_eq]
    simp [List.flatMap_cons]

theorem filters.placeholderCount_append (s t : String) :
    placeholderCount (s ++ t) = placeholderCount s + placeholderCount t := by
  simp [placeholderCount, String.data_append, List.count_append]

theorem filters.placeholderCount_join_loop (sep : String) (rest : List String) (a : String) :
    placeholderCount (rest.foldl (fun b s => b ++ sep ++ s) a) =
      placeholderCount a + (rest.map placeholderCount).sum +
        rest.length * placeholderCount sep := by
  induction rest generalizing a with
  | nil => simp
  | cons r rs ih =>
    rw [List.foldl_cons, ih]
    simp only [filters.placeholderCount_append, List.map_cons, List.sum_cons, List.length_cons]
    ring

theorem filters.placeholderCount_Join (elems : List String) (sep : String) :
    placeholderCount (strings.Join elems sep) =
      (elems.map placeholderCount).sum + (elems.length - 1) * placeholderCount sep := by
  unfold strings.Join
  split
  · simp [placeholderCount]
  · simp
  · rename_i a rest _
    rw [filters.placeholderCount_join_loop]
    simp only [List.map_cons, List.sum_cons, List.length_cons, Nat.add_sub_cancel]

theorem filters.placeholderCount_inList (n : Nat) : placeholderCount (inList n) = n := by
  unfold inList
  rw [filters.placeholderCount_Join]
  have h1 : placeholderCount "," = 0 := by decide
  have h2 : placeholderCount "?" = 1 := by decide
  simp [h1, h2]

theorem filters.placeholderCount_inClause (column : String) (n : Nat) :
    placeholderCount (column ++ " IN (" ++ inList n ++ ")") = placeholderCount column + n := by
  have h1 : placeholderCount " IN (" = 0 := by decide
  have h2 : placeholderCount ")" = 0 := by decide
  simp [filters.placeholderCount_append, filters.placeholderCount_inList, h1, h2]

theorem filters.placeholderCount_likeClause (n : Nat) :
    placeholderCount
      ("(" ++ strings.Join (List.replicate n "Message LIKE ?") " OR " ++ ")") = n := by
  have h1 : placeholderCount "(" = 0 := by decide
  have h2 : placeholderCount ")" = 0 := by decide
  have h3 : placeholderCount " OR " = 0 := by decide
  have h4 : placeholderCount "Message LIKE ?" = 1 := by decide
  simp [filters.placeholderCount_append, filters.placeholderCount_Join, h1, h2, h3, h4]

theorem filters.Op.placeholders_eq_args (op : Op) (h : op.columnHasNoPlaceholder) :
    (op.specClauses.map placeholderCount).sum = op.specArgs.length := by
  cases op with
  | dateRange s e =>
    have h1 : placeholderCount "ReceivedAt BETWEEN ? AND ?" = 2 := by decide
    simp [Op.specClauses, Op.specArgs, h1]
  | severity vs =>
    by_cases hv : vs = []
    · simp [Op.specClauses, Op.specArgs, hv]
    · have h1 : placeholderCount "Priority MOD 8 IN (" = 0 := by decide
      have h2 : placeholderCount ")" = 0 := by decide
      simp [Op.specClauses, Op.specArgs, hv, filters.placeholderCount_append,
        filters.placeholderCount_inList, h1, h2]
  | multiValue c vs =>
    have hc : placeholderCount c = 0 := h
    by_cases hv : vs = []
    · simp [Op.specClauses, Op.specArgs, hv]
    · simp [Op.specClauses, Op.specArgs, hv, filters.placeholderCount_inClause, hc]
  | stringMulti c vs =>
    have hc : placeholderCount c = 0 := h
    by_cases hv : vs = []
    · simp [Op.specClauses, Op.specArgs, hv]
    · simp [Op.specClauses, Op.specArgs, hv, filters.placeholderCount_inClause, hc]
  | intMulti c vs =>
    have hc : placeholderCount c = 0 := h
    by_cases hv : vs = []
    · simp [Op.specClauses, Op.specArgs, hv]
    · simp [Op.specClauses, Op.specArgs, hv, filters.placeholderCount_inClause, hc]
  | messageSearch ts =>
    by_cases hv : ts = []
    · simp [Op.specClauses, Op.specArgs, hv]
    · simp [Op.specClauses, Op.specArgs, hv, filters.placeholderCount_likeClause]

theorem filters.placeholderCount_Build (b : Builder) :
    placeholderCount (Build b).1 = (b.conditions.map placeholderCount).sum := by
  unfold Build
  have h1 : placeholderCount "1=1" = 0 := by decide
  have h2 : placeholderCount " AND " = 0 := by decide
  by_cases h : b.conditions.length = 0
  · have h' := List.length_eq_zero.mp h
    simp [h, h', h1]
  · simp [h, filters.placeholderCount_Join, h2]

theorem filters.placeholders_sum (ops : List Op) (h : ∀ op ∈ ops, op.columnHasNoPlaceholder) :
    ((ops.flatMap Op.specClauses).map placeholderCount).sum =
      (ops.flatMap Op.specArgs).length := by
  induction ops with
  | nil => simp
  | cons op ops ih =>
    have h1 := filters.Op.placeholders_eq_args op (h op (List.mem_cons_self _ _))
    have h2 := ih (fun o ho => h o (List.mem_cons_of_mem _ ho))
    simp [List.flatMap_cons, h1, h2]

theorem filters.Op.specArgs_of_no_clause (op : Op) (h : op.specClauses = []) :
    op.specArgs = [] := by
  cases op with
  | dateRange s e => simp [Op.specClauses] at h
  | severity vs =>
    by_cases hv : vs = []
    · simp [Op.specArgs, hv]
    · simp [Op.specClauses, hv] at h
  | multiValue c vs =>
    by_cases hv : vs = []
    · simp [Op.specArgs, hv]
    · simp [Op.specClauses, hv] at h
  | stringMulti c vs =>
    by_cases hv : vs = []
    · simp [Op.specArgs, hv]
    · simp [Op.specClauses, hv] at h
  | intMulti c vs =>
    by_cases hv : vs = []
    · simp [Op.specArgs, hv]
    · simp [Op.specClauses, hv] at h
  | messageSearch ts =>
    by_cases hv : ts = []
    · simp [Op.specArgs, hv]
    · simp [Op.specClauses, hv] at h

theorem filters.specArgs_of_no_clauses (ops : List Op) (h : ops.flatMap Op.specClauses = []) :
    ops.flatMap Op.specArgs = [] := by
  induction ops with
  | nil => rfl
  | cons op ops ih =>
    simp only [List.flatMap_cons, List.append_eq_nil] at h
    simp [List.flatMap_cons, filters.Op.specArgs_of_no_clause op h.1, ih h.2]

theorem filters.Build_runAll (ops : List Op) : Build (runAll New ops) = specBuild ops := by
  rw [filters.runAll_eq]
  unfold Build specBuild New
  simp only [List.nil_append]
  by_cases h : ops.flatMap Op.specClauses = []
  · simp [h, filters.specArgs_of_no_clauses ops h]
  · have h' : ¬ (ops.flatMap Op.specClauses).length = 0 := fun hl => h (List.length_eq_zero.mp hl)
    rw [if_neg h', if_neg h]

/-- C5 fails as stated: a column name containing `?` adds a `?` to the clause
that has no argument.  `AddMultiValueFilter` with column `a?` and one value
builds the clause `a? IN (?)`, two `?` characters, with one argument. -/
theorem Build_placeholders_counterexample :
    Build (AddMultiValueFilter New "a?" [Arg.int 1]) = ("a? IN (?)", [Arg.int 1]) ∧
      placeholderCount (Build (AddMultiValueFilter New "a?" [Arg.int 1])).1 = 2 ∧
      (Build (AddMultiValueFilter New "a?" [Arg.int 1])).2.length = 1 :=
  ⟨by decide, by decide, by decide⟩

/-- C5 (amended): for every sequence of add operations whose column names
contain no `?` character, applied to a builder created by `New`, the clause
returned by `Build` contains exactly as many `?` characters as the returned
argument list has elements. -/
theorem Build_placeholders_match_args (ops : List Op)
    (h : ∀ op ∈ ops, op.columnHasNoPlaceholder) :
    placeholderCount (Build (runAll New ops)).1 = (Build (runAll New ops)).2.length := by
  rw [filters.placeholderCount_Build, filters.runAll_eq]
  have hargs : ∀ b : Builder, (Build b).2 = b.args := by
    intro b
    unfold Build
    split_ifs <;> rfl
  rw [hargs]
  simpa [New] using filters.placeholders_sum ops h

/-- Instance of the amended C5 on the calls made by the meta handler. -/
theorem Build_placeholders_match_args_witness :
    placeholderCount (Build (runAll New
        [Op.dateRange ⟨0⟩ ⟨86400000000000⟩, Op.stringMulti "FromHost" ["web1", "web2"],
         Op.severity [3, 4], Op.intMulti "Facility" [1], Op.messageSearch ["disk", "full?"],
         Op.stringMulti "SysLogTag" []])).1 =
      (Build (runAll New
        [Op.dateRange ⟨0⟩ ⟨86400000000000⟩, Op.stringMulti "FromHost" ["web1", "web2"],
         Op.severity [3, 4], Op.intMulti "Facility" [1], Op.messageSearch ["disk", "full?"],
         Op.stringMulti "SysLogTag" []])).2.length :=
  Build_placeholders_match_args _ (by decide)

/-- C6: every add operation appends its contributed clauses and arguments to
the builder; after any sequence of add operations on a builder created by
`New`, `Build` returns the clause `1=1` with no arguments when no clause was
contributed, and otherwise the contributed clauses joined by ` AND ` in call
order with the concatenation, in call order, of the contributed arguments;
with zero calls it returns `1=1` and no arguments. -/
theorem Build_after_calls (ops : List Op) :
    (∀ (b : Builder) (op : Op), op.run b =
        { conditions := b.conditions ++ op.specClauses, args := b.args ++ op.specArgs }) ∧
      Build (runAll New ops) = specBuild ops ∧
      Build (runAll New []) = ("1=1", []) :=
  ⟨filters.Op.run_eq, filters.Build_runAll ops, rfl⟩

/-- C7: on every builder and for every column name, each of
`AddSeverityFilter`, `AddMultiValueFilter`, `AddStringMultiValue`,
`AddIntMultiValue` and `AddMessageSearch` called with an empty list returns
the builder unchanged, and `Build` gives the same result as before. -/
theorem add_empty_is_noop (b : Builder) (column : String) :
    (AddSeverityFilter b [] = b ∧ AddMultiValueFilter b column [] = b ∧
      AddStringMultiValue b column [] = b ∧ AddIntMultiValue b column [] = b ∧
      AddMessageSearch b [] = b) ∧
    (Build (AddSeverityFilter b []) = Build b ∧
      Build (AddMultiValueFilter b column []) = Build b ∧
      Build (AddStringMultiValue b column []) = Build b ∧
      Build (AddIntMultiValue b column []) = Build b ∧
      Build (AddMessageSearch b []) = Build b) :=
  ⟨⟨rfl, rfl, rfl, rfl, rfl⟩, ⟨rfl, rfl, rfl, rfl, rfl⟩⟩

/-- C8: for every row with raw Priority `p >= 0` and any stored Facility, the
value `p MOD 8` tested by the clause of `AddSeverityFilter` equals the
Severity decoded by `ScanFromRows`; hence the clause built for a non-empty
list `S`, `Priority MOD 8 IN (?,...,?)` with the elements of `S` as arguments,
holds on the row exactly when the decoded Severity is in `S`. -/
theorem severity_filter_agrees_with_decoder (e : models.LogEntry) (f p : Int)
    (hp : GoInt.InRange p) (h0 : 0 ≤ p) (S : List Int) (hS : S ≠ []) :
    ∃ e', models.ScanFromRows e (.ok ⟨f, p⟩) = .ok e' ∧
      sqlMod p 8 = e'.Severity ∧
      Build (AddSeverityFilter New S) =
        ("Priority MOD 8 IN (" ++ inList S.length ++ ")", S.map Arg.int) ∧
      (severityClauseHolds p (Build (AddSeverityFilter New S)).2 ↔ e'.Severity ∈ S) := by
  have hb : Build (AddSeverityFilter New S) =
      ("Priority MOD 8 IN (" ++ inList S.length ++ ")", S.map Arg.int) := by
    rw [filters.AddSeverityFilter_eq]
    simp [Build, New, Op.specClauses, Op.specArgs, hS, strings.Join]
  have hmod : sqlMod p 8 = p % 8 := Int.tmod_eq_emod h0 (by decide)
  have hmem : ∀ s : Int, severityClauseHolds p (Build (AddSeverityFilter New S)).2 ↔
      sqlMod p 8 ∈ S := by
    intro s
    rw [hb]
    simp [severityClauseHolds]
  by_cases h : p > 7
  · obtain ⟨e', he, _, h2, _⟩ := models.scan_modern e f p hp h
    have hs : sqlMod p 8 = e'.Severity := by rw [h2, hmod]
    exact ⟨e', he, hs, hb, by rw [hmem 0, hs]⟩
  · obtain ⟨e', he, _, h2, _⟩ := models.scan_legacy e f p h
    have hs : sqlMod p 8 = e'.Severity := by rw [h2, hmod]; omega
    exact ⟨e', he, hs, hb, by rw [hmem 0, hs]⟩

/-- Instance of C8: the modern row with raw Priority 26 and the filter on
severities 2 and 5. -/
theorem severity_filter_agrees_with_decoder_witness :
    ∃ e', models.ScanFromRows {} (.ok ⟨0, 26⟩) = .ok e' ∧
      sqlMod 26 8 = e'.Severity ∧
      Build (AddSeverityFilter New [2, 5]) =
        ("Priority MOD 8 IN (" ++ inList 2 ++ ")", [Arg.int 2, Arg.int 5]) ∧
      (severityClauseHolds 26 (Build (AddSeverityFilter New [2, 5])).2 ↔
        e'.Severity ∈ [2, 5]) :=
  severity_filter_agrees_with_decoder {} 0 26 (by decide) (by decide) [2, 5] (by decide)

/-- C9: for every non-empty list of terms, `AddMessageSearch` appends exactly
one clause, `(` followed by one `Message LIKE ?` per term joined by ` OR `
followed by `)`, and appends exactly the arguments `%term%`, one per term in
the order of the terms. -/
theorem AddMessageSearch_appends (b : Builder) (terms : List String) (h : terms ≠ []) :
    (AddMessageSearch b terms).conditions = b.conditions ++
        ["(" ++ strings.Join (List.replicate terms.length "Message LIKE ?") " OR " ++ ")"] ∧
      (AddMessageSearch b terms).args =
        b.args ++ terms.map (fun t => Arg.str ("%" ++ t ++ "%")) := by
  rw [filters.AddMessageSearch_eq]
  simp [Op.specClauses, Op.specArgs, h]

/-- Instance of C9: the terms `disk` and `full` on a builder holding a date
range. -/
theorem AddMessageSearch_appends_witness :
    (AddMessageSearch (AddDateRange New ⟨0⟩ ⟨1⟩) ["disk", "full"]).conditions =
        ["ReceivedAt BETWEEN ? AND ?"] ++ ["(Message LIKE ? OR Message LIKE ?)"] ∧
      (AddMessageSearch (AddDateRange New ⟨0⟩ ⟨1⟩) ["disk", "full"]).args =
        [Arg.time ⟨0⟩, Arg.time ⟨1⟩] ++ [Arg.str "%disk%", Arg.str "%full%"] :=
  AddMessageSearch_appends (AddDateRange New ⟨0⟩ ⟨1⟩) ["disk", "full"] (by decide)

/-- C30: the Facility filter tests the stored Facility column while the
decoder replaces Facility by `rawPriority div 8` whenever `rawPriority > 7`.
For every row with raw Priority `p > 7` and stored Facility `f` different from
`p div 8`, the clause built by `AddIntMultiValue("Facility", [f])` is
`Facility IN (?)` with the argument `f` and holds on the row, yet the row is
decoded with Facility `p div 8`, which is not in the filter set. -/
theorem facility_filter_disagrees (e : models.LogEntry) (f p : Int) (hp : GoInt.InRange p)
    (h : p > 7) (hne : p / 8 ≠ f) :
    Build (AddIntMultiValue New "Facility" [f]) = ("Facility IN (?)", [Arg.int f]) ∧
      facilityClauseHolds f (Build (AddIntMultiValue New "Facility" [f])).2 ∧
      ∃ e', models.ScanFromRows e (.ok ⟨f, p⟩) = .ok e' ∧ e'.Facility = p / 8 ∧
        e'.Facility ∉ [f] := by
  have hb : Build (AddIntMultiValue New "Facility" [f]) = ("Facility IN (?)", [Arg.int f]) := by
    rw [filters.AddIntMultiValue_eq]
    simp only [Build, New, Op.specClauses, Op.specArgs, List.nil_append, List.length_cons,
      List.length_nil, List.map_cons, List.map_nil]
    simp only [reduceCtorEq, if_false, List.length_singleton, one_ne_zero, strings.Join]
    rfl
  refine ⟨hb, ?_, ?_⟩
  · rw [hb]
    simp [facilityClauseHolds]
  · obtain ⟨e', he, _, _, h3⟩ := models.scan_modern e f p hp h
    exact ⟨e', he, h3, by rw [h3]; simpa using hne⟩

/-- Instance of C30: the row with stored Facility 1 and raw Priority 26 passes
the Facility filter on 1 and is decoded with Facility 3. -/
theorem facility_filter_disagrees_witness :
    Build (AddIntMultiValue New "Facility" [1]) = ("Facility IN (?)", [Arg.int 1]) ∧
      facilityClauseHolds 1 (Build (AddIntMultiValue New "Facility" [1])).2 ∧
      ∃ e', models.ScanFromRows {} (.ok ⟨1, 26⟩) = .ok e' ∧ e'.Facility = 3 ∧
        e'.Facility ∉ [(1 : Int)] :=
  facility_filter_disagrees {} 1 26 (by decide) (by decide) (by decide)

end builder

/-! ## Properties of the parameter validators -/

section validators

open filters models

theorem filters.ValidatePagination_cases (limitStr offsetStr : String) :
    match ValidatePagination limitStr offsetStr with
    | .ok (limit, offset) =>
      ((offsetStr = "" ∧ offset = 0) ∨
        (offsetStr ≠ "" ∧ strconv.Atoi offsetStr = some offset ∧ 0 ≤ offset)) ∧
      ((limitStr = "" ∧ limit = 10) ∨
        (limitStr ≠ "" ∧ strconv.Atoi limitStr = some limit ∧ 1 ≤ limit ∧ limit ≤ 50000))
    | .error err =>
      ¬ ((offsetStr = "" ∨ ∃ v, strconv.Atoi offsetStr = some v ∧ 0 ≤ v) ∧
          (limitStr = "" ∨ ∃ v, strconv.Atoi limitStr = some v ∧ 1 ≤ v ∧ v ≤ 50000)) ∧
      err.Code = "INVALID_PARAMETER" ∧ (err.Field = "limit" ∨ err.Field = "offset") := by
  unfold ValidatePagination
  by_cases ho : offsetStr = "" <;> by_cases hl : limitStr = "" <;>
    cases hoa : strconv.Atoi offsetStr <;> cases hla : strconv.Atoi limitStr <;>
    simp only [ho, hl, ne_eq, not_true_eq_false, not_false_eq_true, if_true, if_false,
      NewAPIError, APIError.WithField, APIError.WithDetails, ErrCodeInvalidParameter] <;>
    (try split_ifs) <;>
    simp <;> (try omega)

/-- C10: `ValidatePagination limitStr offsetStr` succeeds if and only if
`offsetStr` is empty or parses (`strconv.Atoi`) as an integer `>= 0` and
`limitStr` is empty or parses as an integer in 1..50000; on success it returns
the parsed values, limit defaulting to 10 and offset to 0 for an empty string;
every failure is an `INVALID_PARAMETER` error whose field is `limit` or
`offset`.  In particular limit=0 fails, limit=50001 fails, limit=50000
succeeds and offset=-1 fails. -/
theorem ValidatePagination_spec :
    (∀ limitStr offsetStr : String,
      ((∃ r, ValidatePagination limitStr offsetStr = .ok r) ↔
        ((offsetStr = "" ∨ ∃ v, strconv.Atoi offsetStr = some v ∧ 0 ≤ v) ∧
          (limitStr = "" ∨ ∃ v, strconv.Atoi limitStr = some v ∧ 1 ≤ v ∧ v ≤ 50000))) ∧
      (match ValidatePagination limitStr offsetStr with
        | .ok (limit, offset) =>
          ((offsetStr = "" ∧ offset = 0) ∨
            (offsetStr ≠ "" ∧ strconv.Atoi offsetStr = some offset)) ∧
          ((limitStr = "" ∧ limit = 10) ∨
            (limitStr ≠ "" ∧ strconv.Atoi limitStr = some limit))
        | .error err =>
          err.Code = "INVALID_PARAMETER" ∧ (err.Field = "limit" ∨ err.Field = "offset"))) ∧
    ValidatePagination "0" "" =
      .error { Code := "INVALID_PARAMETER", Message := "must be greater than 0",
               Details := "", Field := "limit" } ∧
    ValidatePagination "50001" "" =
      .error { Code := "INVALID_PARAMETER", Message := "cannot exceed 50000",
               Details := "Requested: 50001", Field := "limit" } ∧
    ValidatePagination "50000" "" = .ok (50000, 0) ∧
    ValidatePagination "" "-1" =
      .error { Code := "INVALID_PARAMETER", Message := "must be non-negative",
               Details := "", Field := "offset" } ∧
    ValidatePagination "" "" = .ok (10, 0) := by
  refine ⟨?_, rfl, rfl, rfl, rfl, rfl⟩
  intro limitStr offsetStr
  have h := filters.ValidatePagination_cases limitStr offsetStr
  cases hv : ValidatePagination limitStr offsetStr with
  | error err =>
    rw [hv] at h
    exact ⟨⟨fun ⟨r, hr⟩ => (by cases hr), fun hc => absurd hc h.1⟩, h.2⟩
  | ok r =>
    obtain ⟨limit, offset⟩ := r
    rw [hv] at h
    obtain ⟨h1, h2⟩ := h
    refine ⟨⟨fun _ => ⟨?_, ?_⟩, fun _ => ⟨_, rfl⟩⟩, ⟨?_, ?_⟩⟩
    · rcases h1 with ⟨e, _⟩ | ⟨_, e, e0⟩
      · exact Or.inl e
      · exact Or.inr ⟨offset, e, e0⟩
    · rcases h2 with ⟨e, _⟩ | ⟨_, e, e1⟩
      · exact Or.inl e
      · exact Or.inr ⟨limit, e, e1⟩
    · rcases h1 with ⟨e, e0⟩ | ⟨ne, e, _⟩
      · exact Or.inl ⟨e, e0⟩
      · exact Or.inr ⟨ne, e⟩
    · rcases h2 with ⟨e, e0⟩ | ⟨ne, e, _⟩
      · exact Or.inl ⟨e, e0⟩
      · exact Or.inr ⟨ne, e⟩

theorem filters.ValidateDateRange_parsed (parse : String → Option Time)
    (fmtDays : Int → String) (nowStart nowEnd : Time) (startDateStr endDateStr : String)
    (s e : Time) (hs : startDateStr ≠ "") (he : endDateStr ≠ "")
    (hps : parse startDateStr = some s) (hpe : parse endDateStr = some e) :
    ValidateDateRange parse fmtDays nowStart nowEnd startDateStr endDateStr =
      if s.After e then
        .error (NewAPIError ErrCodeInvalidDateRange "start_date cannot be after end_date")
      else if e.Sub s > 90 * 24 * Hour then
        .error ((NewAPIError ErrCodeInvalidDateRange
          "date range cannot exceed 90 days").WithDetails
            ("Requested range: " ++ fmtDays (e.Sub s) ++ " days"))
      else .ok (s, e) := by
  unfold ValidateDateRange
  simp only [hs, he, hps, hpe, ne_eq, not_false_eq_true, if_true]

theorem filters.Time.Sub_le_iff (t u : Time) :
    t.Sub u ≤ 90 * 24 * Hour ↔ t.unixNano - u.unixNano ≤ 90 * 24 * Hour := by
  unfold Time.Sub maxDuration minDuration Hour
  split_ifs <;> omega

/-- C11: for non-empty `start_date` and `end_date` that parse as RFC3339
timestamps `s` and `e`, `ValidateDateRange` succeeds if and only if `s <= e`
and `e - s <= 90 days`, and then returns `s` and `e`; otherwise it fails with
code `INVALID_DATE_RANGE`.  A span of exactly 90 days succeeds; a span of 91
days fails with the formatted number of requested days in the error detail. -/
theorem ValidateDateRange_spec (parse : String → Option Time) (fmtDays : Int → String)
    (nowStart nowEnd : Time) (startDateStr endDateStr : String) (s e : Time)
    (hs : startDateStr ≠ "") (he : endDateStr ≠ "")
    (hps : parse startDateStr = some s) (hpe : parse endDateStr = some e) :
    ((∃ r, ValidateDateRange parse fmtDays nowStart nowEnd startDateStr endDateStr = .ok r) ↔
        (s.unixNano ≤ e.unixNano ∧ e.unixNano - s.unixNano ≤ 90 * 24 * Hour)) ∧
      ((s.unixNano ≤ e.unixNano ∧ e.unixNano - s.unixNano ≤ 90 * 24 * Hour) →
        ValidateDateRange parse fmtDays nowStart nowEnd startDateStr endDateStr = .ok (s, e)) ∧
      (¬ (s.unixNano ≤ e.unixNano ∧ e.unixNano - s.unixNano ≤ 90 * 24 * Hour) →
        ∃ err, ValidateDateRange parse fmtDays nowStart nowEnd startDateStr endDateStr =
            .error err ∧ err.Code = "INVALID_DATE_RANGE") ∧
      (e.unixNano - s.unixNano = 90 * 24 * Hour →
        ValidateDateRange parse fmtDays nowStart nowEnd startDateStr endDateStr = .ok (s, e)) ∧
      (e.unixNano - s.unixNano = 91 * 24 * Hour →
        ValidateDateRange parse fmtDays nowStart nowEnd startDateStr endDateStr =
          .error { Code := "INVALID_DATE_RANGE", Message := "date range cannot exceed 90 days",
                   Details := "Requested range: " ++ fmtDays (91 * 24 * Hour) ++ " days",
                   Field := "" }) := by
  have hv := filters.ValidateDateRange_parsed parse fmtDays nowStart nowEnd startDateStr
    endDateStr s e hs he hps hpe
  have hsub := filters.Time.Sub_le_iff e s
  have hafter : s.After e = true ↔ ¬ s.unixNano ≤ e.unixNano := by
    simp [Time.After]
  have hok : (s.unixNano ≤ e.unixNano ∧ e.unixNano - s.unixNano ≤ 90 * 24 * Hour) →
      ValidateDateRange parse fmtDays nowStart nowEnd startDateStr endDateStr = .ok (s, e) := by
    intro ⟨h1, h2⟩
    have h3 : ¬ s.After e = true := fun h => hafter.mp h h1
    have h4 : ¬ e.Sub s > 90 * 24 * Hour := not_lt.mpr (hsub.mpr h2)
    rw [hv, if_neg h3, if_neg h4]
  have herr : ¬ (s.unixNano ≤ e.unixNano ∧ e.unixNano - s.unixNano ≤ 90 * 24 * Hour) →
      ∃ err, ValidateDateRange parse fmtDays nowStart nowEnd startDateStr endDateStr =
        .error err ∧ err.Code = "INVALID_DATE_RANGE" := by
    intro hn
    by_cases h3 : s.After e = true
    · exact ⟨_, by rw [hv, if_pos h3], rfl⟩
    · have h1 : s.unixNano ≤ e.unixNano := not_not.mp (fun h => h3 (hafter.mpr h))
      have h4 : e.Sub s > 90 * 24 * Hour := by
        by_contra h
        exact hn ⟨h1, hsub.mp (not_lt.mp h)⟩
      exact ⟨_, by rw [hv, if_neg h3, if_pos h4], rfl⟩
  refine ⟨⟨?_, fun h => ⟨_, hok h⟩⟩, hok, herr, ?_, ?_⟩
  · rintro ⟨r, hr⟩
    by_contra hn
    obtain ⟨err, h, _⟩ := herr hn
    rw [h] at hr
    cases hr
  · intro h
    apply hok
    unfold Hour at *
    omega
  · intro h
    have h3 : ¬ s.After e = true := by
      rw [hafter]
      unfold Hour at h
      omega
    have h5 : e.Sub s = 91 * 24 * Hour := by
      unfold Time.Sub maxDuration minDuration
      unfold Hour at *
      split_ifs <;> omega
    have h4 : e.Sub s > 90 * 24 * Hour := by
      rw [h5]; unfold Hour; omega
    rw [hv, if_neg h3, if_pos h4, h5]
    rfl

/-- Instance of C11: with the sample parser, the range from 1 January 2025 to
1 April 2025 (90 days) is accepted and the range to 2 April 2025 (91 days) is
refused with the requested days in the detail. -/
theorem ValidateDateRange_spec_witness :
    ValidateDateRange sampleParse sampleFmtDays ⟨0⟩ ⟨0⟩ "2025-01-01T00:00:00Z"
        "2025-04-01T00:00:00Z" =
      .ok (⟨1735689600000000000⟩, ⟨1743465600000000000⟩) ∧
    ValidateDateRange sampleParse sampleFmtDays ⟨0⟩ ⟨0⟩ "2025-01-01T00:00:00Z"
        "2025-04-02T00:00:00Z" =
      .error { Code := "INVALID_DATE_RANGE", Message := "date range cannot exceed 90 days",
               Details := "Requested range: " ++ sampleFmtDays (91 * 24 * Hour) ++ " days",
               Field := "" } :=
  ⟨(ValidateDateRange_spec sampleParse sampleFmtDays ⟨0⟩ ⟨0⟩ "2025-01-01T00:00:00Z"
      "2025-04-01T00:00:00Z" ⟨1735689600000000000⟩ ⟨1743465600000000000⟩
      (by decide) (by decide) (by decide) (by decide)).2.2.2.1 (by decide),
    (ValidateDateRange_spec sampleParse sampleFmtDays ⟨0⟩ ⟨0⟩ "2025-01-01T00:00:00Z"
      "2025-04-02T00:00:00Z" ⟨1735689600000000000⟩ ⟨1743552000000000000⟩
      (by decide) (by decide) (by decide) (by decide)).2.2.2.2 (by decide)⟩

theorem filters.severitiesLoop_spec (params : List String) (result : List Int) :
    match severitiesLoop params result with
    | .ok vs => ∃ ws, vs = result ++ ws ∧ params.map strconv.Atoi = ws.map some ∧
        ∀ v ∈ ws, 0 ≤ v ∧ v ≤ 7
    | .error err => ∃ pre p post, params = pre ++ p :: post ∧
        (∀ q ∈ pre, ParsesInto 0 7 q) ∧ ¬ ParsesInto 0 7 p ∧
        err = { Code := "INVALID_SEVERITY",
                Message := "'" ++ p ++ "' is not a valid severity (0-7)",
                Details := "", Field := "Severity" } := by
  induction params generalizing result with
  | nil => exact ⟨[], by simp, rfl, by simp⟩
  | cons p rest ih =>
    unfold severitiesLoop
    cases hp : strconv.Atoi p with
    | none =>
      exact ⟨[], p, rest, rfl, by simp, fun ⟨v, hv, _⟩ => by simp [hp] at hv, rfl⟩
    | some v =>
      by_cases hv : v < 0 ∨ v > 7
      · simp only [hv, if_true]
        refine ⟨[], p, rest, rfl, by simp, ?_, rfl⟩
        rintro ⟨w, hw, h0, h7⟩
        rw [hp] at hw
        cases hw
        omega
      · simp only [hv, if_false]
        have h := ih (result ++ [v])
        split at h
        · rename_i vs heq
          obtain ⟨ws, h1, h2, h3⟩ := h
          refine ⟨v :: ws, by simp [h1], by simp [hp, h2], ?_⟩
          intro x hx
          rcases List.mem_cons.mp hx with rfl | hx
          · omega
          · exact h3 x hx
        · rename_i err heq
          obtain ⟨pre, q, post, h1, h2, h3, h4⟩ := h
          refine ⟨p :: pre, q, post, by simp [h1], ?_, h3, h4⟩
          intro x hx
          rcases List.mem_cons.mp hx with rfl | hx
          · exact ⟨v, hp, by omega, by omega⟩
          · exact h2 x hx

theorem filters.facilitiesLoop_spec (params : List String) (result : List Int) :
    match facilitiesLoop params result with
    | .ok vs => ∃ ws, vs = result ++ ws ∧ params.map strconv.Atoi = ws.map some ∧
        ∀ v ∈ ws, 0 ≤ v ∧ v ≤ 23
    | .error err => ∃ pre p post, params = pre ++ p :: post ∧
        (∀ q ∈ pre, ParsesInto 0 23 q) ∧ ¬ ParsesInto 0 23 p ∧
        err = { Code := "INVALID_FACILITY",
                Message := "'" ++ p ++ "' is not a valid facility (0-23)",
                Details := "", Field := "Facility" } := by
  induction params generalizing result with
  | nil => exact ⟨[], by simp, rfl, by simp⟩
  | cons p rest ih =>
    unfold facilitiesLoop
    cases hp : strconv.Atoi p with
    | none =>
      exact ⟨[], p, rest, rfl, by simp, fun ⟨v, hv, _⟩ => by simp [hp] at hv, rfl⟩
    | some v =>
      by_cases hv : v < 0 ∨ v > 23
      · simp only [hv, if_true]
        refine ⟨[], p, rest, rfl, by simp, ?_, rfl⟩
        rintro ⟨w, hw, h0, h7⟩
        rw [hp] at hw
        cases hw
        omega
      · simp only [hv, if_false]
        have h := ih (result ++ [v])
        split at h
        · rename_i vs heq
          obtain ⟨ws, h1, h2, h3⟩ := h
          refine ⟨v :: ws, by simp [h1], by simp [hp, h2], ?_⟩
          intro x hx
          rcases List.mem_cons.mp hx with rfl | hx
          · omega
          · exact h3 x hx
        · rename_i err heq
          obtain ⟨pre, q, post, h1, h2, h3, h4⟩ := h
          refine ⟨p :: pre, q, post, by simp [h1], ?_, h3, h4⟩
          intro x hx
          rcases List.mem_cons.mp hx with rfl | hx
          · exact ⟨v, hp, by omega, by omega⟩
          · exact h2 x hx

theorem filters.parsesInto_of_map (lo hi : Int) (params : List String) (vs : List Int)
    (h1 : params.map strconv.Atoi = vs.map some) (h2 : ∀ v ∈ vs, lo ≤ v ∧ v ≤ hi) :
    ∀ p ∈ params, ParsesInto lo hi p := by
  induction params generalizing vs with
  | nil => simp
  | cons p rest ih =>
    cases vs with
    | nil => simp at h1
    | cons v vs =>
      simp only [List.map_cons, List.cons.injEq] at h1
      intro q hq
      rcases List.mem_cons.mp hq with rfl | hq
      · exact ⟨v, h1.1, h2 v (List.mem_cons_self _ _)⟩
      · exact ih vs h1.2 (fun x hx => h2 x (List.mem_cons_of_mem _ hx)) q hq

/-- C12: `ValidateSeverities` succeeds if and only if every element of the
list parses as an integer in 0..7, and then returns those integers in input
order (the empty list gives no values and no error); otherwise it fails with
code `INVALID_SEVERITY`, field `Severity` and a message quoting the first
element that is not such an integer. -/
theorem ValidateSeverities_spec (params : List String) :
    ((∃ vs, ValidateSeverities params = .ok vs) ↔ ∀ p ∈ params, ParsesInto 0 7 p) ∧
      (match ValidateSeverities params with
        | .ok vs => params.map strconv.Atoi = vs.map some
        | .error err => ∃ pre p post, params = pre ++ p :: post ∧
            (∀ q ∈ pre, ParsesInto 0 7 q) ∧ ¬ ParsesInto 0 7 p ∧
            err = { Code := "INVALID_SEVERITY",
                    Message := "'" ++ p ++ "' is not a valid severity (0-7)",
                    Details := "", Field := "Severity" }) ∧
      ValidateSeverities [] = .ok [] := by
  refine ⟨?_, ?_, rfl⟩
  · by_cases hl : params.length = 0
    · have hnil : params = [] := List.length_eq_zero.mp hl
      subst hnil
      exact ⟨fun _ => by simp, fun _ => ⟨[], rfl⟩⟩
    · have h := filters.severitiesLoop_spec params []
      unfold ValidateSeverities
      rw [if_neg hl]
      split at h
      · rename_i vs heq
        obtain ⟨ws, _, h2, h3⟩ := h
        exact ⟨fun _ => filters.parsesInto_of_map 0 7 params ws h2 h3, fun _ => ⟨vs, heq⟩⟩
      · rename_i err heq
        obtain ⟨pre, p, post, h1, _, h3, _⟩ := h
        refine ⟨fun ⟨vs, hvs⟩ => (by rw [heq] at hvs; cases hvs), fun hall => ?_⟩
        exact absurd (hall p (by rw [h1]; simp)) h3
  · by_cases hl : params.length = 0
    · have hnil : params = [] := List.length_eq_zero.mp hl
      subst hnil
      rfl
    · have h := filters.severitiesLoop_spec params []
      unfold ValidateSeverities
      rw [if_neg hl]
      split at h
      · obtain ⟨ws, h1, h2, _⟩ := h
        simp only [List.nil_append] at h1
        rw [h1]
        exact h2
      · exact h

/-- C13: `ValidateFacilities` succeeds if and only if every element of the
list parses as an integer in 0..23, and then returns those integers in input
order (the empty list gives no values and no error); otherwise it fails with
code `INVALID_FACILITY`, field `Facility` and a message quoting the first
element that is not such an integer. -/
theorem ValidateFacilities_spec (params : List String) :
    ((∃ vs, ValidateFacilities params = .ok vs) ↔ ∀ p ∈ params, ParsesInto 0 23 p) ∧
      (match ValidateFacilities params with
        | .ok vs => params.map strconv.Atoi = vs.map some
        | .error err => ∃ pre p post, params = pre ++ p :: post ∧
            (∀ q ∈ pre, ParsesInto 0 23 q) ∧ ¬ ParsesInto 0 23 p ∧
            err = { Code := "INVALID_FACILITY",
                    Message := "'" ++ p ++ "' is not a valid facility (0-23)",
                    Details := "", Field := "Facility" }) ∧
      ValidateFacilities [] = .ok [] := by
  refine ⟨?_, ?_, rfl⟩
  · by_cases hl : params.length = 0
    · have hnil : params = [] := List.length_eq_zero.mp hl
      subst hnil
      exact ⟨fun _ => by simp, fun _ => ⟨[], rfl⟩⟩
    · have h := filters.facilitiesLoop_spec params []
      unfold ValidateFacilities
      rw [if_neg hl]
      split at h
      · rename_i vs heq
        obtain ⟨ws, _, h2, h3⟩ := h
        exact ⟨fun _ => filters.parsesInto_of_map 0 23 params ws h2 h3, fun _ => ⟨vs, heq⟩⟩
      · rename_i err heq
        obtain ⟨pre, p, post, h1, _, h3, _⟩ := h
        refine ⟨fun ⟨vs, hvs⟩ => (by rw [heq] at hvs; cases hvs), fun hall => ?_⟩
        exact absurd (hall p (by rw [h1]; simp)) h3
  · by_cases hl : params.length = 0
    · have hnil : params = [] := List.length_eq_zero.mp hl
      subst hnil
      rfl
    · have h := filters.facilitiesLoop_spec params []
      unfold ValidateFacilities
      rw [if_neg hl]
      split at h
      · obtain ⟨ws, h1, h2, _⟩ := h
        simp only [List.nil_append] at h1
        rw [h1]
        exact h2
      · exact h

/-- Instance of C12: `3`, `0`, `7` are accepted in order, and `3`, `8`, `x` is
refused quoting `8`. -/
theorem ValidateSeverities_spec_witness :
    ValidateSeverities ["3", "0", "7"] = .ok [3, 0, 7] ∧
      ValidateSeverities ["3", "8", "x"] =
        .error { Code := "INVALID_SEVERITY", Message := "'8' is not a valid severity (0-7)",
                 Details := "", Field := "Severity" } ∧
      ((∃ vs, ValidateSeverities ["3", "8", "x"] = .ok vs) ↔
        ∀ p ∈ ["3", "8", "x"], ParsesInto 0 7 p) :=
  ⟨rfl, rfl, (ValidateSeverities_spec ["3", "8", "x"]).1⟩

/-- Instance of C13: `23`, `0` are accepted in order, and `24` is refused. -/
theorem ValidateFacilities_spec_witness :
    ValidateFacilities ["23", "0"] = .ok [23, 0] ∧
      ValidateFacilities ["1", "24"] =
        .error { Code := "INVALID_FACILITY", Message := "'24' is not a valid facility (0-23)",
                 Details := "", Field := "Facility" } ∧
      ((∃ vs, ValidateFacilities ["1", "24"] = .ok vs) ↔
        ∀ p ∈ ["1", "24"], ParsesInto 0 23 p) :=
  ⟨rfl, rfl, (ValidateFacilities_spec ["1", "24"]).1⟩

/-- C29: the defaults take part in the range checks.  With an empty
`start_date` the start is `now - 24h`, so an `end_date` that parses to a time
earlier than `now - 24h` fails with `INVALID_DATE_RANGE` and the message
`start_date cannot be after end_date`; with an empty `end_date` the end is
`now`, so a `start_date` that parses to a time more than 90 days before `now`
fails with `INVALID_DATE_RANGE`. -/
theorem ValidateDateRange_defaults (parse : String → Option Time) (fmtDays : Int → String)
    (nowStart nowEnd : Time) :
    (∀ (endDateStr : String) (e : Time), endDateStr ≠ "" → parse endDateStr = some e →
        e.unixNano < nowStart.unixNano - 24 * Hour →
        ValidateDateRange parse fmtDays nowStart nowEnd "" endDateStr =
          .error { Code := "INVALID_DATE_RANGE",
                   Message := "start_date cannot be after end_date",
                   Details := "", Field := "" }) ∧
      (∀ (startDateStr : String) (s : Time), startDateStr ≠ "" → parse startDateStr = some s →
        nowEnd.unixNano - s.unixNano > 90 * 24 * Hour →
        ValidateDateRange parse fmtDays nowStart nowEnd startDateStr "" =
          .error { Code := "INVALID_DATE_RANGE",
                   Message := "date range cannot exceed 90 days",
                   Details := "Requested range: " ++ fmtDays (nowEnd.Sub s) ++ " days",
                   Field := "" }) := by
  constructor
  · intro endDateStr e hne hp hlt
    have ha : (nowStart.Add (-24 * Hour)).After e = true := by
      simp only [Time.After, Time.Add, decide_eq_true_eq]
      unfold Hour at *
      omega
    unfold ValidateDateRange
    simp only [ne_eq, not_true_eq_false, if_false, hne, not_false_eq_true, if_true, hp, ha]
    rfl
  · intro startDateStr s hne hp hgt
    have ha : ¬ s.After nowEnd = true := by
      simp only [Time.After, decide_eq_true_eq]
      unfold Hour at hgt
      omega
    have hsub : nowEnd.Sub s > 90 * 24 * Hour := by
      unfold Time.Sub maxDuration minDuration
      unfold Hour at *
      split_ifs <;> omega
    unfold ValidateDateRange
    simp only [ne_eq, not_true_eq_false, if_false, hne, not_false_eq_true, if_true, hp, ha,
      hsub]
    rfl

/-- Instance of C29: at 2 April 2025 an `end_date` of 1 January 2025 with no
`start_date` is refused, and at 2 April 2025 a `start_date` of 1 January 2025
with no `end_date` is refused (91 days). -/
theorem ValidateDateRange_defaults_witness :
    ValidateDateRange sampleParse sampleFmtDays ⟨1743552000000000000⟩ ⟨1743552000000000000⟩
        "" "2025-01-01T00:00:00Z" =
      .error { Code := "INVALID_DATE_RANGE", Message := "start_date cannot be after end_date",
               Details := "", Field := "" } ∧
    ValidateDateRange sampleParse sampleFmtDays ⟨1743552000000000000⟩ ⟨1743552000000000000⟩
        "2025-01-01T00:00:00Z" "" =
      .error { Code := "INVALID_DATE_RANGE", Message := "date range cannot exceed 90 days",
               Details := "Requested range: " ++
                 sampleFmtDays ((⟨1743552000000000000⟩ : Time).Sub ⟨1735689600000000000⟩) ++
                 " days",
               Field := "" } :=
  have h := ValidateDateRange_defaults sampleParse sampleFmtDays ⟨1743552000000000000⟩
    ⟨1743552000000000000⟩
  ⟨h.1 "2025-01-01T00:00:00Z" ⟨1735689600000000000⟩ (by decide) (by decide) (by decide),
   h.2 "2025-01-01T00:00:00Z" ⟨1735689600000000000⟩ (by decide) (by decide) (by decide)⟩

end validators

/-! ## Properties of the session store -/

section sessions

open auth filters

theorem auth.Validate_fst (s : SessionStore) (now : Time) (token : String) :
    (s.Validate now token).1 = true ↔
      ∃ sess, s.sessions token = some sess ∧ now.After sess.expiresAt = false := by
  unfold SessionStore.Validate
  cases h : s.sessions token with
  | none => simp
  | some sess =>
    by_cases ha : now.After sess.expiresAt = true
    · simp [ha]
    · simp [ha]

theorem auth.After_eq_false (t u : Time) : t.After u = false ↔ t.unixNano ≤ u.unixNano := by
  simp [Time.After]

theorem auth.After_eq_true (t u : Time) : t.After u = true ↔ u.unixNano < t.unixNano := by
  simp [Time.After]

theorem auth.Validate_snd_other (s : SessionStore) (now : Time) (token other : String)
    (h : other ≠ token) : (s.Validate now token).2.sessions other = s.sessions other := by
  unfold SessionStore.Validate
  cases hs : s.sessions token with
  | none => rfl
  | some sess =>
    by_cases ha : now.After sess.expiresAt = true
    · simp [ha, mapDelete, h]
    · simp [ha]

theorem auth.Validate_snd_self (s : SessionStore) (now : Time) (token : String) :
    (s.Validate now token).2.sessions token =
      if (s.Validate now token).1 then s.sessions token else none := by
  unfold SessionStore.Validate
  cases hs : s.sessions token with
  | none => simp [hs]
  | some sess =>
    by_cases ha : now.After sess.expiresAt = true
    · simp [ha, mapDelete]
    · simp [ha, hs]

theorem auth.Validate_fst_le (s : SessionStore) (now : Time) (token : String) :
    (s.Validate now token).1 = true ↔
      ∃ sess, s.sessions token = some sess ∧ now.unixNano ≤ sess.expiresAt.unixNano := by
  rw [auth.Validate_fst]
  constructor
  · rintro ⟨sess, h1, h2⟩
    exact ⟨sess, h1, (auth.After_eq_false _ _).mp h2⟩
  · rintro ⟨sess, h1, h2⟩
    exact ⟨sess, h1, (auth.After_eq_false _ _).mpr h2⟩

/-- C14 fails as stated: a lookup made exactly at `expiresAt` returns true.  The
session created at time 0 expires at 8 h = 28800000000000 ns, and `Validate`
at that very instant accepts it although `now < expiresAt` is false. -/
theorem Validate_boundary_counterexample :
    (NewSessionStore.Create ⟨0⟩ (.ok [171])).1 = .ok "ab" ∧
      (NewSessionStore.Create ⟨0⟩ (.ok [171])).2.sessions "ab" =
        some { token := "ab", expiresAt := ⟨28800000000000⟩ } ∧
      ((NewSessionStore.Create ⟨0⟩ (.ok [171])).2.Validate ⟨28800000000000⟩ "ab").1 = true ∧
      ¬ ((28800000000000 : Int) < 28800000000000) :=
  ⟨rfl, rfl, rfl, by decide⟩

/-- C14 (amended): for every store state, token and time `now`,
`Validate(token)` returns true if and only if the token is present in the
store and `now <= expiresAt` of its session (a lookup made exactly at
`expiresAt` returns true; any later lookup returns false). -/
theorem Validate_true_iff (s : SessionStore) (now : Time) (token : String) :
    (s.Validate now token).1 = true ↔
      ∃ sess, s.sessions token = some sess ∧ now.unixNano ≤ sess.expiresAt.unixNano :=
  auth.Validate_fst_le s now token

/-- C15: a token returned by `Create` at time `t0` is stored with
`expiresAt = t0 + 8 hours`; `Validate` of that token at time `t0` returns
true, and `Validate` of it at any time after `t0 + 8 hours` returns false. -/
theorem Create_then_Validate (s : SessionStore) (t0 : Time) (raw : List Nat) :
    (s.Create t0 (.ok raw)).1 = .ok (hex.EncodeToString raw) ∧
      (s.Create t0 (.ok raw)).2.sessions (hex.EncodeToString raw) =
        some { token := hex.EncodeToString raw,
               expiresAt := { unixNano := t0.unixNano + 8 * Hour } } ∧
      ((s.Create t0 (.ok raw)).2.Validate t0 (hex.EncodeToString raw)).1 = true ∧
      (∀ now : Time, now.unixNano > t0.unixNano + 8 * Hour →
        ((s.Create t0 (.ok raw)).2.Validate now (hex.EncodeToString raw)).1 = false) := by
  have hstored : (s.Create t0 (.ok raw)).2.sessions (hex.EncodeToString raw) =
      some { token := hex.EncodeToString raw,
             expiresAt := { unixNano := t0.unixNano + 8 * Hour } } := by
    simp [SessionStore.Create, mapAssign, Time.Add, sessionTTL]
  refine ⟨rfl, hstored, ?_, ?_⟩
  · rw [auth.Validate_fst_le]
    exact ⟨_, hstored, by simp [Hour]⟩
  · intro now hnow
    cases hv : ((s.Create t0 (.ok raw)).2.Validate now (hex.EncodeToString raw)).1 with
    | false => rfl
    | true =>
      obtain ⟨sess, h1, h2⟩ := (auth.Validate_fst_le _ _ _).mp hv
      rw [hstored] at h1
      cases h1
      simp only at h2
      omega

theorem auth.mapDelete_absent (m : String → Option session) (token : String)
    (h : m token = none) : mapDelete m token = m := by
  funext k
  unfold mapDelete
  by_cases hk : k = token
  · simp [hk, h]
  · simp [hk]

theorem auth.mapDelete_idem (m : String → Option session) (token : String) :
    mapDelete (mapDelete m token) token = mapDelete m token := by
  funext k
  unfold mapDelete
  by_cases hk : k = token <;> simp [hk]

/-- C16: after `Revoke(t)`, `Validate(t)` returns false at any time; the
session of every other token is unchanged; `Revoke` of a token that is not in
the store leaves the store unchanged; and `Revoke(t)` twice gives the same
store as `Revoke(t)` once. -/
theorem Revoke_spec (s : SessionStore) (t : String) :
    (∀ now : Time, ((s.Revoke t).Validate now t).1 = false) ∧
      (∀ other : String, other ≠ t → (s.Revoke t).sessions other = s.sessions other) ∧
      (s.sessions t = none → s.Revoke t = s) ∧
      (s.Revoke t).Revoke t = s.Revoke t := by
  refine ⟨?_, ?_, ?_, ?_⟩
  · intro now
    simp [SessionStore.Revoke, SessionStore.Validate, mapDelete]
  · intro other h
    simp [SessionStore.Revoke, mapDelete, h]
  · intro h
    unfold SessionStore.Revoke
    rw [auth.mapDelete_absent _ _ h]
  · unfold SessionStore.Revoke
    simp only [auth.mapDelete_idem]

/-- Instance of C16: the token created at time 0 is refused once revoked. -/
theorem Revoke_spec_witness :
    (((NewSessionStore.Create ⟨0⟩ (.ok [171])).2.Revoke "ab").Validate ⟨0⟩ "ab").1 = false :=
  (Revoke_spec (NewSessionStore.Create ⟨0⟩ (.ok [171])).2 "ab").1 ⟨0⟩

theorem auth.cleanupStep_other (now : Time) (m : String → Option session) (k t : String)
    (h : t ≠ k) : cleanupStep now m k t = m t := by
  unfold cleanupStep
  cases hm : m k with
  | none => rfl
  | some sess =>
    by_cases ha : now.After sess.expiresAt = true
    · simp [ha, mapDelete, h]
    · simp [ha]

theorem auth.cleanupStep_self (now : Time) (m : String → Option session) (k : String) :
    cleanupStep now m k k = (m k).filter (fun sess => !now.After sess.expiresAt) := by
  unfold cleanupStep
  cases hm : m k with
  | none => simp [hm]
  | some sess =>
    by_cases ha : now.After sess.expiresAt = true
    · simp [ha, mapDelete, Option.filter]
    · simp [ha, hm, Option.filter]

theorem auth.cleanup_fold (now : Time) (order : List String) (m : String → Option session)
    (t : String) :
    order.foldl (cleanupStep now) m t =
      if t ∈ order then (m t).filter (fun sess => !now.After sess.expiresAt) else m t := by
  induction order generalizing m with
  | nil => simp
  | cons k ks ih =>
    rw [List.foldl_cons, ih]
    by_cases hk : t = k
    · subst hk
      rw [auth.cleanupStep_self]
      have hidem : ((m t).filter (fun sess => !now.After sess.expiresAt)).filter
          (fun sess => !now.After sess.expiresAt) =
          (m t).filter (fun sess => !now.After sess.expiresAt) := by
        cases m t with
        | none => rfl
        | some sess =>
          by_cases ha : now.After sess.expiresAt = true <;> simp [Option.filter, ha]
      by_cases hmem : t ∈ ks <;> simp [hmem, hidem]
    · rw [auth.cleanupStep_other now m k t hk]
      by_cases hmem : t ∈ ks <;> simp [hmem, hk]

/-- C17 fails as stated: a session with `expiresAt` equal to `now` is kept by
the sweep.  The session created at time 0 expires at 28800000000000 ns, and a
pass at that very instant leaves it in the store. -/
theorem cleanupPass_boundary_counterexample :
    (NewSessionStore.Create ⟨0⟩ (.ok [171])).2.sessions "ab" =
        some { token := "ab", expiresAt := ⟨28800000000000⟩ } ∧
      ((NewSessionStore.Create ⟨0⟩ (.ok [171])).2.cleanupPass ⟨28800000000000⟩
          ["ab"]).sessions "ab" =
        some { token := "ab", expiresAt := ⟨28800000000000⟩ } ∧
      (28800000000000 : Int) ≤ 28800000000000 :=
  ⟨rfl, rfl, by decide⟩

/-- C17 (amended): one pass of the background sweep at time `now`, visiting
every key of the map, removes every session with `expiresAt < now` and keeps,
unchanged, every session with `expiresAt >= now`; no session is added. -/
theorem cleanupPass_spec (s : SessionStore) (now : Time) (order : List String)
    (hcover : ∀ t, s.sessions t ≠ none → t ∈ order) :
    (∀ t sess, s.sessions t = some sess → sess.expiresAt.unixNano < now.unixNano →
        (s.cleanupPass now order).sessions t = none) ∧
      (∀ t sess, s.sessions t = some sess → now.unixNano ≤ sess.expiresAt.unixNano →
        (s.cleanupPass now order).sessions t = some sess) ∧
      (∀ t, s.sessions t = none → (s.cleanupPass now order).sessions t = none) := by
  have hfold := auth.cleanup_fold now order s.sessions
  refine ⟨?_, ?_, ?_⟩
  · intro t sess hs hlt
    have hmem : t ∈ order := hcover t (by rw [hs]; simp)
    have ha : now.After sess.expiresAt = true := (auth.After_eq_true _ _).mpr hlt
    show order.foldl (cleanupStep now) s.sessions t = none
    rw [hfold, if_pos hmem, hs]
    simp [Option.filter, ha]
  · intro t sess hs hle
    have hmem : t ∈ order := hcover t (by rw [hs]; simp)
    have ha : now.After sess.expiresAt = false := (auth.After_eq_false _ _).mpr hle
    show order.foldl (cleanupStep now) s.sessions t = some sess
    rw [hfold, if_pos hmem, hs]
    simp [Option.filter, ha]
  · intro t hs
    show order.foldl (cleanupStep now) s.sessions t = none
    rw [hfold, hs]
    simp

/-- Instance of C17 (amended): of two sessions created at times 0 and 1 h, a
pass one nanosecond after the first has expired removes the first and keeps
the second. -/
theorem cleanupPass_spec_witness :
    (((NewSessionStore.Create ⟨0⟩ (.ok [171])).2.Create ⟨3600000000000⟩
        (.ok [205])).2.cleanupPass ⟨28800000000001⟩ ["cd", "ab"]).sessions "ab" = none ∧
      (((NewSessionStore.Create ⟨0⟩ (.ok [171])).2.Create ⟨3600000000000⟩
        (.ok [205])).2.cleanupPass ⟨28800000000001⟩ ["cd", "ab"]).sessions "cd" =
        some { token := "cd", expiresAt := ⟨32400000000000⟩ } :=
  have h := cleanupPass_spec
    ((NewSessionStore.Create ⟨0⟩ (.ok [171])).2.Create ⟨3600000000000⟩ (.ok [205])).2
    ⟨28800000000001⟩ ["cd", "ab"]
    (by
      intro t ht
      by_cases h1 : t = "cd"
      · simp [h1]
      · by_cases h2 : t = "ab"
        · simp [h2]
        · exact absurd (by simp [SessionStore.Create, NewSessionStore, mapAssign, h1, h2,
            hex.EncodeToString, hex.digit]) ht)
  ⟨h.1 "ab" { token := "ab", expiresAt := ⟨28800000000000⟩ } rfl (by decide),
   h.2.1 "cd" { token := "cd", expiresAt := ⟨32400000000000⟩ } rfl (by decide)⟩

/-- C18: if `Validate(t)` finds an entry for `t` that is expired it returns
false and the entry is gone from the store afterwards; in every case the
sessions of all other tokens are unchanged, and when `Validate(t)` returns
true the session of `t` and the whole store are unchanged. -/
theorem Validate_frame (s : SessionStore) (now : Time) (t : String) :
    (∀ sess, s.sessions t = some sess → now.After sess.expiresAt = true →
        (s.Validate now t).1 = false ∧ (s.Validate now t).2.sessions t = none) ∧
      (∀ other : String, other ≠ t →
        (s.Validate now t).2.sessions other = s.sessions other) ∧
      ((s.Validate now t).1 = true →
        (s.Validate now t).2.sessions t = s.sessions t ∧
          (s.Validate now t).2.sessions = s.sessions) ∧
      ((s.Validate now t).1 = false → (s.Validate now t).2.sessions t = none) := by
  refine ⟨?_, fun other h => auth.Validate_snd_other s now t other h, ?_, ?_⟩
  · intro sess hs ha
    simp [SessionStore.Validate, hs, ha, mapDelete]
  · intro hv
    have h1 := auth.Validate_snd_self s now t
    rw [hv] at h1
    refine ⟨by simpa using h1, ?_⟩
    funext k
    by_cases hk : k = t
    · subst hk; simpa using h1
    · exact auth.Validate_snd_other s now t k hk
  · intro hv
    have h1 := auth.Validate_snd_self s now t
    rw [hv] at h1
    simpa using h1

/-- Instance of C18: `Validate` one nanosecond after expiry refuses the token
and removes its entry. -/
theorem Validate_frame_witness :
    ((NewSessionStore.Create ⟨0⟩ (.ok [171])).2.Validate ⟨28800000000001⟩ "ab").1 = false ∧
      ((NewSessionStore.Create ⟨0⟩ (.ok [171])).2.Validate ⟨28800000000001⟩
        "ab").2.sessions "ab" = none :=
  (Validate_frame (NewSessionStore.Create ⟨0⟩ (.ok [171])).2 ⟨28800000000001⟩ "ab").1
    { token := "ab", expiresAt := ⟨28800000000000⟩ } rfl rfl

end sessions

/-! ## Properties of the authentication middleware -/

section authMiddleware

open auth filters middleware models

theorem auth.verifyLoop_eq_find (h : String) (keys : List config.ReadOnlyKey) :
    verifyLoop h keys =
      match keys.find? (fun k => decide (k.KeyHash = h)) with
      | some k => k.Name
      | none => "" := by
  induction keys with
  | nil => rfl
  | cons k rest ih =>
    unfold verifyLoop
    by_cases hk : k.KeyHash = h
    · simp [hk]
    · simp [hk, ih]

theorem middleware.resolveRole_accepted (sha256Hex : String → String) (r : Request)
    (mgr : Manager) (store : SessionStore) (now : Time)
    (h : extractToken r ≠ "" ∧ (store.Validate now (extractToken r)).1 = true) :
    (resolveRole sha256Hex r mgr store now).1 = Role.RoleAdmin := by
  unfold resolveRole
  simp [h.1, h.2]

theorem middleware.resolveRole_not_accepted (sha256Hex : String → String) (r : Request)
    (mgr : Manager) (store : SessionStore) (now : Time)
    (h : ¬ (extractToken r ≠ "" ∧ (store.Validate now (extractToken r)).1 = true)) :
    (resolveRole sha256Hex r mgr store now).1 =
      if r.Header "X-API-Key" ≠ "" ∧
          mgr.VerifyReadOnlyKey sha256Hex (r.Header "X-API-Key") ≠ "" then Role.RoleReadOnly
      else Role.RoleNone := by
  unfold resolveRole
  by_cases ht : extractToken r = ""
  · simp only [ht, ne_eq, not_true_eq_false, if_false]
    split_ifs <;> simp_all
  · have hv : (store.Validate now (extractToken r)).1 = false := by
      cases hb : (store.Validate now (extractToken r)).1 with
      | false => rfl
      | true => exact absurd ⟨ht, hb⟩ h
    simp only [ne_eq, ht, not_false_eq_true, if_true, hv]
    split_ifs <;> simp_all

/-- C19 fails as stated: a request may carry a session token that `Validate`
accepts and still not be Admin.  With `X-Session-Token: stale` and
`Authorization: Bearer ab`, where `ab` is a live session, `extractToken`
returns `stale` and `resolveRole` returns `RoleNone`. -/
theorem resolveRole_precedence_counterexample :
    ((NewSessionStore.Create ⟨0⟩ (.ok [171])).2.Validate ⟨1⟩ "ab").1 = true ∧
      strings.TrimPrefix ((requestWith "stale" "Bearer ab" "").Header "Authorization")
        "Bearer " = "ab" ∧
      extractToken (requestWith "stale" "Bearer ab" "") = "stale" ∧
      (resolveRole (fun k => k) (requestWith "stale" "Bearer ab" "") { cfg := {} }
        (NewSessionStore.Create ⟨0⟩ (.ok [171])).2 ⟨1⟩).1 = Role.RoleNone :=
  ⟨rfl, by decide, by decide, rfl⟩

/-- C19 (amended): the session token of a request is the `X-Session-Token`
header when that is non-empty, otherwise the text after `Bearer ` in the
`Authorization` header.  `resolveRole` returns Admin exactly when this token
is non-empty and accepted by `Validate`, whatever `X-API-Key` contains; it
returns ReadOnly exactly when that is not so and the `X-API-Key` header is
non-empty and `VerifyReadOnlyKey` returns a non-empty name for it; otherwise
it returns None. -/
theorem resolveRole_spec (sha256Hex : String → String) (r : Request) (mgr : Manager)
    (store : SessionStore) (now : Time) :
    (extractToken r =
        if r.Header "X-Session-Token" ≠ "" then r.Header "X-Session-Token"
        else if strings.HasPrefix (r.Header "Authorization") "Bearer " then
          strings.TrimPrefix (r.Header "Authorization") "Bearer "
        else "") ∧
      ((resolveRole sha256Hex r mgr store now).1 = Role.RoleAdmin ↔
        (extractToken r ≠ "" ∧ (store.Validate now (extractToken r)).1 = true)) ∧
      ((resolveRole sha256Hex r mgr store now).1 = Role.RoleReadOnly ↔
        (¬ (extractToken r ≠ "" ∧ (store.Validate now (extractToken r)).1 = true) ∧
          r.Header "X-API-Key" ≠ "" ∧
          mgr.VerifyReadOnlyKey sha256Hex (r.Header "X-API-Key") ≠ "")) ∧
      ((resolveRole sha256Hex r mgr store now).1 = Role.RoleNone ↔
        (¬ (extractToken r ≠ "" ∧ (store.Validate now (extractToken r)).1 = true) ∧
          ¬ (r.Header "X-API-Key" ≠ "" ∧
            mgr.VerifyReadOnlyKey sha256Hex (r.Header "X-API-Key") ≠ ""))) := by
  refine ⟨rfl, ?_, ?_, ?_⟩
  all_goals
    by_cases hacc : extractToken r ≠ "" ∧ (store.Validate now (extractToken r)).1 = true
    · rw [middleware.resolveRole_accepted sha256Hex r mgr store now hacc]
      simp [hacc]
    · rw [middleware.resolveRole_not_accepted sha256Hex r mgr store now hacc]
      by_cases hkey : r.Header "X-API-Key" ≠ "" ∧
          mgr.VerifyReadOnlyKey sha256Hex (r.Header "X-API-Key") ≠ ""
      · rw [if_pos hkey]
        simp [hacc, hkey]
      · rw [if_neg hkey]
        simp [hacc, hkey]

/-- Instance of C19 (amended): a request with a live `X-Session-Token` and an
`X-API-Key` that matches no stored key is Admin. -/
theorem resolveRole_spec_witness :
    (resolveRole (fun k => k) (requestWith "ab" "" "nokey") { cfg := {} }
      (NewSessionStore.Create ⟨0⟩ (.ok [171])).2 ⟨1⟩).1 = Role.RoleAdmin :=
  (resolveRole_spec (fun k => k) (requestWith "ab" "" "nokey") { cfg := {} }
    (NewSessionStore.Create ⟨0⟩ (.ok [171])).2 ⟨1⟩).2.1.mpr ⟨by decide, rfl⟩

theorem middleware.extractToken_none (r : Request) (hx : r.Header "X-Session-Token" = "")
    (hb : strings.HasPrefix (r.Header "Authorization") "Bearer " = false) :
    extractToken r = "" := by
  unfold extractToken
  simp [hx, hb]

/-- C20 fails as stated, in two ways.  (1) The first stored key with the
matching hash decides: with keys `("", h)` and `("ops", h)`, `h` the hash of
`k1`, a request with `X-API-Key: k1` matches the key named `ops` and is still
`RoleNone`, refused by `AuthReadOnly`.  (2) An empty `X-API-Key` value is never
looked up: with the hash of the empty string stored under `ops`, the request is
`RoleNone`. -/
theorem readOnly_key_counterexample :
    extractToken (requestWith "" "" "k1") = "" ∧
      (({ Name := "ops", KeyHash := "sha256:k1" } : config.ReadOnlyKey) ∈
          [({ Name := "", KeyHash := "sha256:k1" } : config.ReadOnlyKey),
           { Name := "ops", KeyHash := "sha256:k1" }] ∧
        hashKey (fun k => "sha256:" ++ k) "k1" = "sha256:k1") ∧
      (resolveRole (fun k => "sha256:" ++ k) (requestWith "" "" "k1")
        { cfg := { Auth := { ReadOnlyKeys :=
            [{ Name := "", KeyHash := "sha256:k1" }, { Name := "ops", KeyHash := "sha256:k1" }] } } }
        NewSessionStore ⟨0⟩).1 = Role.RoleNone ∧
      (AuthReadOnly (fun k => "sha256:" ++ k)
        { cfg := { Auth := { ReadOnlyKeys :=
            [{ Name := "", KeyHash := "sha256:k1" }, { Name := "ops", KeyHash := "sha256:k1" }] } } }
        NewSessionStore ⟨0⟩ (requestWith "" "" "k1")).1 =
        Outcome.responded 401
          { Code := "UNAUTHORIZED", Message := "Authentication required",
            Details := "Provide X-API-Key header or X-Session-Token header", Field := "" } ∧
      hashKey (fun k => "sha256:" ++ k) "" = "sha256:" ∧
      (resolveRole (fun k => "sha256:" ++ k) (requestWith "" "" "")
        { cfg := { Auth := { ReadOnlyKeys := [{ Name := "ops", KeyHash := "sha256:" }] } } }
        NewSessionStore ⟨0⟩).1 = Role.RoleNone :=
  ⟨by decide, ⟨by decide, by decide⟩, rfl, rfl, by decide, rfl⟩

/-- C20 (amended): for every request that has no session token (no
`X-Session-Token` and no `Bearer` Authorization header) and whose `X-API-Key`
value is non-empty and such that the first stored read-only key whose
`KeyHash` equals its hash has a non-empty name: `resolveRole` returns
ReadOnly, the `AuthReadOnly` gate calls the next handler, and the `AuthAdmin`
gate answers 401 `UNAUTHORIZED` without calling the next handler. -/
theorem readOnly_key_gates (sha256Hex : String → String) (r : Request) (mgr : Manager)
    (store : SessionStore) (now : Time) (k : config.ReadOnlyKey)
    (hx : r.Header "X-Session-Token" = "")
    (hb : strings.HasPrefix (r.Header "Authorization") "Bearer " = false)
    (hne : r.Header "X-API-Key" ≠ "")
    (hfind : mgr.cfg.Auth.ReadOnlyKeys.find?
      (fun q => decide (q.KeyHash = hashKey sha256Hex (r.Header "X-API-Key"))) = some k)
    (hname : k.Name ≠ "") :
    (resolveRole sha256Hex r mgr store now).1 = Role.RoleReadOnly ∧
      (AuthReadOnly sha256Hex mgr store now r).1 = Outcome.next ∧
      (AuthAdmin store now r).1 =
        Outcome.responded 401
          { Code := "UNAUTHORIZED", Message := "Admin authentication required",
            Details := "Provide a valid X-Session-Token header", Field := "" } := by
  have ht := middleware.extractToken_none r hx hb
  have hv : mgr.VerifyReadOnlyKey sha256Hex (r.Header "X-API-Key") = k.Name := by
    unfold Manager.VerifyReadOnlyKey
    simp only [auth.verifyLoop_eq_find, hfind]
  have hrole : (resolveRole sha256Hex r mgr store now).1 = Role.RoleReadOnly := by
    rw [middleware.resolveRole_not_accepted sha256Hex r mgr store now (by simp [ht])]
    rw [if_pos ⟨hne, by rw [hv]; exact hname⟩]
  refine ⟨hrole, ?_, ?_⟩
  · unfold AuthReadOnly
    simp [hrole]
  · unfold AuthAdmin
    simp only [ht, true_or, if_true]
    rfl

/-- Instance of C20 (amended): the key `k1` stored under the name `ops`. -/
theorem readOnly_key_gates_witness :
    (resolveRole (fun k => "sha256:" ++ k) (requestWith "" "" "k1")
        { cfg := { Auth := { ReadOnlyKeys := [{ Name := "ops", KeyHash := "sha256:k1" }] } } }
        NewSessionStore ⟨0⟩).1 = Role.RoleReadOnly ∧
      (AuthReadOnly (fun k => "sha256:" ++ k)
        { cfg := { Auth := { ReadOnlyKeys := [{ Name := "ops", KeyHash := "sha256:k1" }] } } }
        NewSessionStore ⟨0⟩ (requestWith "" "" "k1")).1 = Outcome.next ∧
      (AuthAdmin NewSessionStore ⟨0⟩ (requestWith "" "" "k1")).1 =
        Outcome.responded 401
          { Code := "UNAUTHORIZED", Message := "Admin authentication required",
            Details := "Provide a valid X-Session-Token header", Field := "" } :=
  readOnly_key_gates (fun k => "sha256:" ++ k) (requestWith "" "" "k1")
    { cfg := { Auth := { ReadOnlyKeys := [{ Name := "ops", KeyHash := "sha256:k1" }] } } }
    NewSessionStore ⟨0⟩ { Name := "ops", KeyHash := "sha256:k1" }
    (by decide) (by decide) (by decide) (by decide) (by decide)

/-- C22: `VerifyReadOnlyKey(k)` returns the `Name` of the first stored record
whose `KeyHash` equals the hex SHA-256 of `k`, and the empty string when no
record has that hash; in particular a pair `(plaintext, hash)` produced by
`GenerateReadOnlyKey` and stored under the name `n`, no other record having
that hash, makes `VerifyReadOnlyKey(plaintext)` return `n`. -/
theorem VerifyReadOnlyKey_spec (sha256Hex : String → String) (mgr : Manager) (k : String) :
    (∀ pre rec post, mgr.cfg.Auth.ReadOnlyKeys = pre ++ rec :: post →
        (∀ q ∈ pre, q.KeyHash ≠ sha256Hex k) → rec.KeyHash = sha256Hex k →
        mgr.VerifyReadOnlyKey sha256Hex k = rec.Name) ∧
      ((∀ q ∈ mgr.cfg.Auth.ReadOnlyKeys, q.KeyHash ≠ sha256Hex k) →
        mgr.VerifyReadOnlyKey sha256Hex k = "") ∧
      (∀ raw plaintext hash n pre post,
        GenerateReadOnlyKey sha256Hex (.ok raw) = .ok (plaintext, hash) →
        mgr.cfg.Auth.ReadOnlyKeys = pre ++ { Name := n, KeyHash := hash } :: post →
        (∀ q ∈ pre ++ post, q.KeyHash ≠ hash) →
        hash = sha256Hex plaintext ∧ mgr.VerifyReadOnlyKey sha256Hex plaintext = n) := by
  have hfirst : ∀ (h : String) (pre : List config.ReadOnlyKey) (rec : config.ReadOnlyKey)
      (post : List config.ReadOnlyKey), (∀ q ∈ pre, q.KeyHash ≠ h) → rec.KeyHash = h →
      verifyLoop h (pre ++ rec :: post) = rec.Name := by
    intro h pre rec post hpre hrec
    induction pre with
    | nil => simp [verifyLoop, hrec]
    | cons q qs ih =>
      have hq : q.KeyHash ≠ h := hpre q (List.mem_cons_self _ _)
      simp only [List.cons_append, verifyLoop, if_neg hq]
      exact ih (fun x hx => hpre x (List.mem_cons_of_mem _ hx))
  have hnone : ∀ (h : String) (keys : List config.ReadOnlyKey),
      (∀ q ∈ keys, q.KeyHash ≠ h) → verifyLoop h keys = "" := by
    intro h keys hk
    induction keys with
    | nil => rfl
    | cons q qs ih =>
      have hq : q.KeyHash ≠ h := hk q (List.mem_cons_self _ _)
      simp only [verifyLoop, if_neg hq]
      exact ih (fun x hx => hk x (List.mem_cons_of_mem _ hx))
  refine ⟨?_, ?_, ?_⟩
  · intro pre rec post hkeys hpre hrec
    unfold Manager.VerifyReadOnlyKey hashKey
    rw [hkeys]
    exact hfirst _ pre rec post hpre hrec
  · intro hall
    unfold Manager.VerifyReadOnlyKey hashKey
    exact hnone _ _ hall
  · intro raw plaintext hash n pre post hgen hkeys hother
    simp only [GenerateReadOnlyKey, hashKey, Except.ok.injEq, Prod.mk.injEq] at hgen
    obtain ⟨hpt, hh⟩ := hgen
    subst hpt
    refine ⟨hh.symm, ?_⟩
    unfold Manager.VerifyReadOnlyKey hashKey
    rw [hkeys, hh]
    exact hfirst _ pre _ post (fun q hq => hother q (List.mem_append_left _ hq)) rfl

/-- Instance of C22: the key generated from the byte 171 is stored under the
name `ops` after a key `old` with another hash; verifying it returns `ops`,
and verifying an unknown key returns the empty string. -/
theorem VerifyReadOnlyKey_spec_witness :
    GenerateReadOnlyKey (fun k => "sha256:" ++ k) (.ok [171]) = .ok ("ab", "sha256:ab") ∧
      Manager.VerifyReadOnlyKey (fun k => "sha256:" ++ k)
        { cfg := { Auth := { ReadOnlyKeys :=
            [{ Name := "old", KeyHash := "sha256:zz" }, { Name := "ops", KeyHash := "sha256:ab" }] } } }
        "ab" = "ops" ∧
      Manager.VerifyReadOnlyKey (fun k => "sha256:" ++ k)
        { cfg := { Auth := { ReadOnlyKeys :=
            [{ Name := "old", KeyHash := "sha256:zz" }, { Name := "ops", KeyHash := "sha256:ab" }] } } }
        "nokey" = "" :=
  ⟨rfl,
   ((VerifyReadOnlyKey_spec (fun k => "sha256:" ++ k)
      { cfg := { Auth := { ReadOnlyKeys :=
          [{ Name := "old", KeyHash := "sha256:zz" }, { Name := "ops", KeyHash := "sha256:ab" }] } } }
      "ab").2.2 [171] "ab" "sha256:ab" "ops" [{ Name := "old", KeyHash := "sha256:zz" }] []
      rfl rfl (by decide)).2,
   (VerifyReadOnlyKey_spec (fun k => "sha256:" ++ k)
      { cfg := { Auth := { ReadOnlyKeys :=
          [{ Name := "old", KeyHash := "sha256:zz" }, { Name := "ops", KeyHash := "sha256:ab" }] } } }
      "nokey").2.1 (by decide)⟩

/-- C28: whenever the `X-Session-Token` header is non-empty, `extractToken`
returns it whatever the `Authorization` header holds; if `Validate` refuses
that value, `resolveRole` does not return Admin and the `AuthAdmin` gate
answers 401 without calling the next handler, even when `Authorization` is
`Bearer ` followed by a valid session token.  The Bearer token is returned
only when `X-Session-Token` is empty. -/
theorem extractToken_precedence (sha256Hex : String → String) (r : Request) (mgr : Manager)
    (store : SessionStore) (now : Time) (hx : r.Header "X-Session-Token" ≠ "")
    (hv : (store.Validate now (r.Header "X-Session-Token")).1 = false) :
    extractToken r = r.Header "X-Session-Token" ∧
      (resolveRole sha256Hex r mgr store now).1 ≠ Role.RoleAdmin ∧
      (AuthAdmin store now r).1 =
        Outcome.responded 401
          { Code := "UNAUTHORIZED", Message := "Admin authentication required",
            Details := "Provide a valid X-Session-Token header", Field := "" } ∧
      (∀ r2 : Request, r2.Header "X-Session-Token" = "" →
        extractToken r2 =
          if strings.HasPrefix (r2.Header "Authorization") "Bearer " then
            strings.TrimPrefix (r2.Header "Authorization") "Bearer "
          else "") ∧
      (∀ r2 : Request, extractToken r2 ≠ r2.Header "X-Session-Token" →
        r2.Header "X-Session-Token" = "") := by
  have ht : extractToken r = r.Header "X-Session-Token" := by
    unfold extractToken
    simp [hx]
  refine ⟨ht, ?_, ?_, ?_, ?_⟩
  · have hna : ¬ (extractToken r ≠ "" ∧ (store.Validate now (extractToken r)).1 = true) := by
      rw [ht, hv]
      simp
    rw [middleware.resolveRole_not_accepted sha256Hex r mgr store now hna]
    split_ifs <;> simp
  · unfold AuthAdmin
    have hne : ¬ extractToken r = "" := by rw [ht]; exact hx
    simp only [hne, if_false, false_or]
    rw [ht, hv]
    rfl
  · intro r2 h2
    unfold extractToken
    simp [h2]
  · intro r2 h2
    by_contra hne
    apply h2
    unfold extractToken
    simp [hne]

/-- Instance of C28: `X-Session-Token: expired` with `Authorization: Bearer cd`,
where `cd` is a live session, is not Admin and is refused by `AuthAdmin`. -/
theorem extractToken_precedence_witness :
    ((NewSessionStore.Create ⟨0⟩ (.ok [205])).2.Validate ⟨5⟩ "cd").1 = true ∧
      extractToken (requestWith "expired" "Bearer cd" "") = "expired" ∧
      (resolveRole (fun k => k) (requestWith "expired" "Bearer cd" "") { cfg := {} }
        (NewSessionStore.Create ⟨0⟩ (.ok [205])).2 ⟨5⟩).1 ≠ Role.RoleAdmin ∧
      (AuthAdmin (NewSessionStore.Create ⟨0⟩ (.ok [205])).2 ⟨5⟩
        (requestWith "expired" "Bearer cd" "")).1 =
        Outcome.responded 401
          { Code := "UNAUTHORIZED", Message := "Admin authentication required",
            Details := "Provide a valid X-Session-Token header", Field := "" } :=
  have h := extractToken_precedence (fun k => k) (requestWith "expired" "Bearer cd" "")
    { cfg := {} } (NewSessionStore.Create ⟨0⟩ (.ok [205])).2 ⟨5⟩ (by decide) rfl
  ⟨rfl, h.1, h.2.1, h.2.2.1⟩

theorem strings.lastIndexLoop_absent (p : List Char) (i : Nat) (last : Int)
    (hp : ':' ∉ p) : strings.lastIndexLoop [':'] p i last = last := by
  induction p generalizing i last with
  | nil => simp [strings.lastIndexLoop]
  | cons c cs ih =>
    have hc : c ≠ ':' := fun h => hp (by simp [h])
    have hcs : ':' ∉ cs := fun h => hp (List.mem_cons_of_mem _ h)
    have hpre : List.isPrefixOf [':'] (c :: cs) = false := by
      simp [List.isPrefixOf, hc.symm]
    simp only [strings.lastIndexLoop, hpre]
    exact ih (i + 1) last hcs

theorem strings.lastIndexLoop_split (a p : List Char) (i : Nat) (last : Int)
    (hp : ':' ∉ p) :
    strings.lastIndexLoop [':'] (a ++ ':' :: p) i last = ((i + a.length : Nat) : Int) := by
  induction a generalizing i last with
  | nil =>
    have hpre : List.isPrefixOf [':'] (':' :: p) = true := by
      simp [List.isPrefixOf]
    simp only [List.nil_append, strings.lastIndexLoop, hpre, if_true, List.length_nil,
      Nat.add_zero]
    exact strings.lastIndexLoop_absent p (i + 1) i hp
  | cons c cs ih =>
    show strings.lastIndexLoop [':'] (c :: (cs ++ ':' :: p)) i last = _
    rw [strings.lastIndexLoop, ih]
    simp only [List.length_cons]
    congr 1
    omega

theorem strings.exists_last_colon (cs : List Char) (h : ':' ∈ cs) :
    ∃ a p, cs = a ++ ':' :: p ∧ ':' ∉ p := by
  induction cs with
  | nil => simp at h
  | cons c t ih =>
    by_cases ht : ':' ∈ t
    · obtain ⟨a, p, hcs, hp⟩ := ih ht
      exact ⟨c :: a, p, by simp [hcs], hp⟩
    · have hc : c = ':' := by
        rcases List.mem_cons.mp h with h1 | h1
        · exact h1.symm
        · exact absurd h1 ht
      exact ⟨[], t, by simp [hc], ht⟩

theorem middleware.beforeLast_split (a p : List Char) (hp : ':' ∉ p) :
    (a ++ ':' :: p).reverse.dropWhile (fun c => c != ':') = ':' :: a.reverse := by
  have hall : ∀ c ∈ p.reverse, (fun c => c != ':') c = true := by
    intro c hc
    have : c ≠ ':' := fun h => hp (by rw [← h]; exact List.mem_reverse.mp hc)
    simpa using this
  simp only [List.reverse_append, List.reverse_cons, List.append_assoc, List.singleton_append]
  rw [List.dropWhile_append_of_pos hall]
  simp [List.dropWhile]

theorem middleware.beforeLast_absent (cs : List Char) (h : ':' ∉ cs) :
    cs.reverse.dropWhile (fun c => c != ':') = [] := by
  rw [List.dropWhile_eq_nil_iff]
  intro c hc
  have : c ≠ ':' := fun hcc => h (by rw [← hcc]; exact List.mem_reverse.mp hc)
  simpa using this

theorem middleware.isBracket_eq :
    (fun c : Char => "[]".data.contains c) = (fun c => c == '[' || c == ']') := by
  funext c
  show List.elem c ['[', ']'] = _
  simp only [List.elem]
  cases (c == '[') <;> cases (c == ']') <;> rfl

theorem middleware.isLocalhost_eq_hostPart (r : Request) :
    isLocalhost r = (decide (hostPart r.RemoteAddr = "127.0.0.1") ||
      decide (hostPart r.RemoteAddr = "::1") || decide (hostPart r.RemoteAddr = "localhost")) := by
  have hhost : strings.Trim
      (if strings.LastIndex r.RemoteAddr ":" ≠ -1 then
        strings.sliceTo r.RemoteAddr (strings.LastIndex r.RemoteAddr ":")
       else r.RemoteAddr) "[]" = hostPart r.RemoteAddr := by
    unfold hostPart strings.Trim
    rw [middleware.isBracket_eq]
    by_cases hc : ':' ∈ r.RemoteAddr.data
    · obtain ⟨a, p, hcs, hp⟩ := strings.exists_last_colon _ hc
      have hidx : strings.LastIndex r.RemoteAddr ":" = (a.length : Int) := by
        unfold strings.LastIndex
        rw [hcs]
        have := strings.lastIndexLoop_split a p 0 (-1) hp
        simpa using this
      have hne : strings.LastIndex r.RemoteAddr ":" ≠ -1 := by
        rw [hidx]; omega
      rw [if_pos hne, hidx, hcs, middleware.beforeLast_split a p hp]
      simp [strings.sliceTo, hcs]
    · have hidx : strings.LastIndex r.RemoteAddr ":" = -1 := by
        unfold strings.LastIndex
        exact strings.lastIndexLoop_absent _ 0 (-1) hc
      rw [hidx, middleware.beforeLast_absent _ hc]
      simp
  unfold isLocalhost
  simp only [hhost]

theorem middleware.hostPart_with_port (h p : String) (hp : ':' ∉ p.data) :
    hostPart (h ++ ":" ++ p) =
      String.mk (((h.data.dropWhile (fun c => c == '[' || c == ']')).reverse.dropWhile
        (fun c => c == '[' || c == ']')).reverse) := by
  unfold hostPart
  have hd : (h ++ ":" ++ p).data = h.data ++ ':' :: p.data := by
    simp [String.data_append]
  rw [hd, middleware.beforeLast_split h.data p.data hp]
  simp

/-- C21: `isLocalhost` returns true for `127.0.0.1:p`, `[::1]:p` and
`localhost:p` for every port `p` (a text without `:`); it returns true exactly
when the host part of `RemoteAddr` (the text before the last `:` with the
surrounding square brackets removed) is `127.0.0.1`, `::1` or `localhost`, and
false otherwise; `LocalhostOnly` answers 403 `FORBIDDEN` without calling the
next handler exactly when `isLocalhost` is false, and calls it otherwise. -/
theorem isLocalhost_spec (r : Request) (p : String) (hp : ':' ∉ p.data) :
    isLocalhost { r with RemoteAddr := "127.0.0.1:" ++ p } = true ∧
      isLocalhost { r with RemoteAddr := "[::1]:" ++ p } = true ∧
      isLocalhost { r with RemoteAddr := "localhost:" ++ p } = true ∧
      (isLocalhost r = true ↔
        (hostPart r.RemoteAddr = "127.0.0.1" ∨ hostPart r.RemoteAddr = "::1" ∨
          hostPart r.RemoteAddr = "localhost")) ∧
      (LocalhostOnly r =
          Outcome.responded 403
            { Code := "FORBIDDEN", Message := "This endpoint is only accessible from localhost",
              Details := "", Field := "" } ↔ isLocalhost r = false) ∧
      (LocalhostOnly r = Outcome.next ↔ isLocalhost r = true) := by
  have h1 : hostPart ("127.0.0.1:" ++ p) = "127.0.0.1" := by
    have e : "127.0.0.1:" = "127.0.0.1" ++ ":" := by decide
    rw [e, middleware.hostPart_with_port _ p hp]
    decide
  have h2 : hostPart ("[::1]:" ++ p) = "::1" := by
    have e : "[::1]:" = "[::1]" ++ ":" := by decide
    rw [e, middleware.hostPart_with_port _ p hp]
    decide
  have h3 : hostPart ("localhost:" ++ p) = "localhost" := by
    have e : "localhost:" = "localhost" ++ ":" := by decide
    rw [e, middleware.hostPart_with_port _ p hp]
    decide
  refine ⟨?_, ?_, ?_, ?_, ?_, ?_⟩
  · rw [middleware.isLocalhost_eq_hostPart]
    simp [h1]
  · rw [middleware.isLocalhost_eq_hostPart]
    simp [h2]
  · rw [middleware.isLocalhost_eq_hostPart]
    simp [h3]
  · rw [middleware.isLocalhost_eq_hostPart]
    simp [or_assoc]
  · unfold LocalhostOnly
    cases isLocalhost r
    · simp [StatusForbidden, NewAPIError]
    · simp
  · unfold LocalhostOnly
    cases isLocalhost r
    · simp
    · simp

/-- Instance of C21: the peer `127.0.0.1:54321` passes the gate and the peer
`203.0.113.5:4000` is answered 403 `FORBIDDEN`. -/
theorem isLocalhost_spec_witness :
    isLocalhost { Header := fun _ => "", RemoteAddr := "127.0.0.1:" ++ "54321" } = true ∧
      isLocalhost { Header := fun _ => "", RemoteAddr := "[::1]:" ++ "54321" } = true ∧
      isLocalhost { Header := fun _ => "", RemoteAddr := "203.0.113.5:4000" } = false ∧
      LocalhostOnly { Header := fun _ => "", RemoteAddr := "203.0.113.5:4000" } =
        Outcome.responded 403
          { Code := "FORBIDDEN", Message := "This endpoint is only accessible from localhost",
            Details := "", Field := "" } :=
  have h := isLocalhost_spec { Header := fun _ => "", RemoteAddr := "203.0.113.5:4000" }
    "54321" (by decide)
  ⟨h.1, h.2.1, by decide, h.2.2.2.2.1.mpr (by decide)⟩

end authMiddleware

/-! ## Properties of the secret codec -/

section secretCodec

open config

theorem strings.HasPrefix_append (p x : String) : strings.HasPrefix (p ++ x) p = true := by
  unfold strings.HasPrefix
  rw [String.data_append, List.isPrefixOf_iff_prefix]
  exact List.prefix_append _ _

theorem strings.TrimPrefix_append (p x : String) : strings.TrimPrefix (p ++ x) p = x := by
  unfold strings.TrimPrefix
  rw [strings.HasPrefix_append, if_pos rfl, String.data_append, List.drop_left]

theorem sample.decodeLoop_unary (b n : Nat) (rest : List Char) :
    sample.decodeLoop (List.replicate b 'a' ++ 'b' :: rest) n =
      (n + b) :: sample.decodeLoop rest 0 := by
  induction b generalizing n with
  | zero => simp [sample.decodeLoop]
  | succ k ih =>
    show sample.decodeLoop ('a' :: (List.replicate k 'a' ++ 'b' :: rest)) n = _
    rw [sample.decodeLoop, if_pos rfl, ih]
    congr 1
    omega

theorem sample.decode_encode (bs : List Nat) :
    sample.decodeNats (sample.encodeNats bs) = bs := by
  unfold sample.decodeNats sample.encodeNats
  induction bs with
  | nil => rfl
  | cons b rest ih =>
    simp only [List.flatMap_cons, List.append_assoc, List.singleton_append]
    rw [sample.decodeLoop_unary]
    simp only [Nat.zero_add]
    rw [ih]

theorem sample.open_seal (nonce : List Nat) (pt : String) :
    sample.gcm.Open nonce (sample.gcm.Seal nonce pt) = .ok pt := by
  simp [sample.gcm, Function.comp_def, Char.ofNat_toNat]

/-- C23: for every value that does not start with `enc:`, `DecryptPassword`
returns the value unchanged with no error, whatever the host identity is (also
when it cannot be read) and whatever the cryptographic primitives are. -/
theorem DecryptPassword_plaintext (P : Primitives) (machineID : Except String String)
    (value : String) (h : strings.HasPrefix value "enc:" = false) :
    DecryptPassword P machineID value = .ok value := by
  unfold DecryptPassword encPrefix
  simp [h]

/-- Instance of C23: the value `hunter2` is returned unchanged, also when the
machine ID cannot be read. -/
theorem DecryptPassword_plaintext_witness :
    DecryptPassword sample.primitives (.error "no machine id") "hunter2" = .ok "hunter2" :=
  DecryptPassword_plaintext sample.primitives (.error "no machine id") "hunter2" (by decide)

/-- C24: for a fixed host identity, whenever `EncryptPassword(s)` succeeds its
result starts with `enc:` and `DecryptPassword` of that result returns `s`
with no error.  The laws of the standard library used are: base64 decoding
inverts base64 encoding, `gcm.Open` inverts `gcm.Seal` under the same nonce,
and `io.ReadFull` fills the whole nonce. -/
theorem Encrypt_then_Decrypt (P : Primitives) (machineID : Except String String)
    (nonceRead : Except String (List Nat)) (s enc : String)
    (hbase64 : ∀ b, P.DecodeString (P.EncodeToString b) = .ok b)
    (hgcm : ∀ block gcm nonce pt, P.NewGCM block = .ok gcm → nonce.length = gcm.NonceSize →
      gcm.Open nonce (gcm.Seal nonce pt) = .ok pt)
    (hnonce : ∀ nonce block gcm, nonceRead = .ok nonce → P.NewGCM block = .ok gcm →
      nonce.length = gcm.NonceSize)
    (henc : EncryptPassword P machineID nonceRead s = .ok enc) :
    strings.HasPrefix enc "enc:" = true ∧ DecryptPassword P machineID enc = .ok s := by
  unfold EncryptPassword at henc
  cases hk : deriveKey P machineID with
  | error err => rw [hk] at henc; cases henc
  | ok key =>
    rw [hk] at henc
    cases hc : P.NewCipher key with
    | error err => simp [hc] at henc
    | ok block =>
      cases hg : P.NewGCM block with
      | error err => simp [hc, hg] at henc
      | ok gcm =>
        cases hn : nonceRead with
        | error err => simp [hc, hg, hn] at henc
        | ok nonce =>
          simp only [hc, hg, hn, Except.ok.injEq] at henc
          subst henc
          have hlen : nonce.length = gcm.NonceSize := hnonce nonce block gcm hn hg
          refine ⟨strings.HasPrefix_append _ _, ?_⟩
          unfold DecryptPassword
          have hp : strings.HasPrefix
              (encPrefix ++ P.EncodeToString (nonce ++ gcm.Seal nonce s)) encPrefix = true :=
            strings.HasPrefix_append _ _
          simp only [hp, Bool.not_true, Bool.false_eq_true, if_false,
            strings.TrimPrefix_append, hbase64, hk, hc, hg]
          have hnot : ¬ (nonce ++ gcm.Seal nonce s).length < gcm.NonceSize := by
            simp [hlen]
          rw [if_neg hnot]
          have htake : (nonce ++ gcm.Seal nonce s).take gcm.NonceSize = nonce := by
            rw [← hlen]; simp
          have hdrop : (nonce ++ gcm.Seal nonce s).drop gcm.NonceSize = gcm.Seal nonce s := by
            rw [← hlen]; simp
          simp only [htake, hdrop, hgcm block gcm nonce s hg hlen]

/-- Instance of C24 with the sample primitives: the password `s3` encrypted on
the host `host-1` with the nonce 1, 2 decrypts to `s3` on the same host. -/
theorem Encrypt_then_Decrypt_witness :
    ∃ enc, EncryptPassword sample.primitives (.ok "host-1") (.ok [1, 2]) "s3" = .ok enc ∧
      strings.HasPrefix enc "enc:" = true ∧
      DecryptPassword sample.primitives (.ok "host-1") enc = .ok "s3" :=
  ⟨_, rfl,
    Encrypt_then_Decrypt sample.primitives (.ok "host-1") (.ok [1, 2]) "s3" _
      (fun b => by
        show Except.ok (sample.decodeNats (sample.encodeNats b)) = Except.ok b
        rw [sample.decode_encode])
      (fun _ gcm nonce pt hg _ => by
        have hgcm : sample.gcm = gcm := by
          have h : (Except.ok sample.gcm : Except String AEAD) = .ok gcm := hg
          exact Except.ok.inj h
        rw [← hgcm]
        exact sample.open_seal nonce pt)
      (fun nonce _ gcm hn hg => by
        have hgcm : sample.gcm = gcm := by
          have h : (Except.ok sample.gcm : Except String AEAD) = .ok gcm := hg
          exact Except.ok.inj h
        have hnn : [1, 2] = nonce := Except.ok.inj hn
        rw [← hgcm, ← hnn]
        rfl)
      rfl⟩

end secretCodec

/-! ## Properties of key creation -/

section keyCreation

open admin models

theorem admin.nameTaken_iff (name : String) (keys : List config.ReadOnlyKey) :
    nameTaken name keys = true ↔ name ∈ keys.map (fun k => k.Name) := by
  induction keys with
  | nil => simp [nameTaken]
  | cons k rest ih =>
    unfold nameTaken
    by_cases hk : k.Name = name
    · simp [hk]
    · simp only [if_neg hk, ih, List.map_cons, List.mem_cons]
      constructor
      · exact fun h => Or.inr h
      · rintro (h | h)
        · exact absurd h.symm hk
        · exact h

theorem admin.handleCreate_keys (sha256Hex : String → String) (cfg : config.Config)
    (body : Except String CreateKeyRequest) (randRead : Except String (List Nat))
    (save : Except String Unit) :
    (handleCreate sha256Hex cfg body randRead save).2 = cfg ∨
      ∃ req hash, body = .ok req ∧ strings.TrimSpace req.Name ≠ "" ∧
        nameTaken (strings.TrimSpace req.Name) cfg.Auth.ReadOnlyKeys = false ∧
        (handleCreate sha256Hex cfg body randRead save).2.Auth.ReadOnlyKeys =
          cfg.Auth.ReadOnlyKeys ++ [{ Name := strings.TrimSpace req.Name, KeyHash := hash }] := by
  unfold handleCreate
  cases body with
  | error e => exact Or.inl rfl
  | ok req =>
    by_cases hn : strings.TrimSpace req.Name = ""
    · simp [hn]
    · cases ht : nameTaken (strings.TrimSpace req.Name) cfg.Auth.ReadOnlyKeys with
      | true => simp [hn, ht]
      | false =>
        cases hg : auth.GenerateReadOnlyKey sha256Hex randRead with
        | error e => simp [hn, ht, hg]
        | ok ph =>
          obtain ⟨plaintext, hash⟩ := ph
          refine Or.inr ⟨req, hash, rfl, hn, ht, ?_⟩
          cases save <;> simp [hn, ht, hg]

/-- C25 fails as stated on one input: when a stored key has the empty name, a
request whose trimmed name is empty equals the name of an existing key and is
rejected with `INVALID_PARAMETER` on the field `name`, not with `CONFLICT`. -/
theorem handleCreate_empty_name_counterexample :
    strings.TrimSpace "  " = ({ Name := "", KeyHash := "h0" } : config.ReadOnlyKey).Name ∧
      handleCreate (fun k => "sha256:" ++ k)
          { Auth := { ReadOnlyKeys := [{ Name := "", KeyHash := "h0" }] } }
          (.ok { Name := "  " }) (.ok [171]) (.ok ()) =
        (Response.error 400
          { Code := "INVALID_PARAMETER", Message := "Key name is required", Details := "",
            Field := "name" },
         { Auth := { ReadOnlyKeys := [{ Name := "", KeyHash := "h0" }] } }) :=
  ⟨by decide, rfl⟩

/-- C25 (amended): if the names of the stored read-only keys are pairwise
distinct before `handleCreate` runs, they are pairwise distinct afterwards; a
request whose trimmed name is non-empty and equals the name of an existing key
is rejected with 409 `CONFLICT` and leaves the key list unchanged; a request
whose trimmed name is empty is rejected with 400 `INVALID_PARAMETER` on the
field `name` and leaves the key list unchanged. -/
theorem handleCreate_names (sha256Hex : String → String) (cfg : config.Config)
    (body : Except String CreateKeyRequest) (randRead : Except String (List Nat))
    (save : Except String Unit) :
    ((cfg.Auth.ReadOnlyKeys.map (fun k => k.Name)).Nodup →
        ((handleCreate sha256Hex cfg body randRead save).2.Auth.ReadOnlyKeys.map
          (fun k => k.Name)).Nodup) ∧
      (∀ req, body = .ok req → strings.TrimSpace req.Name ≠ "" →
        (∃ k ∈ cfg.Auth.ReadOnlyKeys, k.Name = strings.TrimSpace req.Name) →
        handleCreate sha256Hex cfg body randRead save =
          (Response.error 409
            { Code := "CONFLICT", Message := "A key with this name already exists",
              Details := "", Field := "" }, cfg)) ∧
      (∀ req, body = .ok req → strings.TrimSpace req.Name = "" →
        handleCreate sha256Hex cfg body randRead save =
          (Response.error 400
            { Code := "INVALID_PARAMETER", Message := "Key name is required", Details := "",
              Field := "name" }, cfg)) := by
  refine ⟨?_, ?_, ?_⟩
  · intro hnd
    rcases admin.handleCreate_keys sha256Hex cfg body randRead save with h | h
    · rw [h]; exact hnd
    · obtain ⟨req, hash, _, _, ht, hkeys⟩ := h
      rw [hkeys, List.map_append, List.nodup_append]
      refine ⟨hnd, by simp, ?_⟩
      intro a ha hb
      simp only [List.map_cons, List.map_nil, List.mem_singleton] at hb
      subst hb
      have := (admin.nameTaken_iff _ _).mpr ha
      rw [ht] at this
      cases this
  · intro req hb hne hex
    subst hb
    have ht : nameTaken (strings.TrimSpace req.Name) cfg.Auth.ReadOnlyKeys = true := by
      rw [admin.nameTaken_iff]
      obtain ⟨k, hk, hkn⟩ := hex
      exact List.mem_map.mpr ⟨k, hk, hkn⟩
    unfold handleCreate
    simp only [hne, if_false, ht, if_true]
    rfl
  · intro req hb he
    subst hb
    unfold handleCreate
    simp only [he, if_true]
    rfl

/-- Instance of C25 (amended): creating `ops` next to an existing `ops` is a
conflict, and creating `new` keeps the names distinct. -/
theorem handleCreate_names_witness :
    handleCreate (fun k => "sha256:" ++ k)
        { Auth := { ReadOnlyKeys := [{ Name := "ops", KeyHash := "h0" }] } }
        (.ok { Name := " ops " }) (.ok [171]) (.ok ()) =
      (Response.error 409
        { Code := "CONFLICT", Message := "A key with this name already exists",
          Details := "", Field := "" },
       { Auth := { ReadOnlyKeys := [{ Name := "ops", KeyHash := "h0" }] } }) ∧
    ((handleCreate (fun k => "sha256:" ++ k)
        { Auth := { ReadOnlyKeys := [{ Name := "ops", KeyHash := "h0" }] } }
        (.ok { Name := "new" }) (.ok [171]) (.ok ())).2.Auth.ReadOnlyKeys.map
          (fun k => k.Name)).Nodup :=
  ⟨(handleCreate_names (fun k => "sha256:" ++ k)
      { Auth := { ReadOnlyKeys := [{ Name := "ops", KeyHash := "h0" }] } }
      (.ok { Name := " ops " }) (.ok [171]) (.ok ())).2.1 { Name := " ops " } rfl
      (by decide) ⟨{ Name := "ops", KeyHash := "h0" }, by decide, by decide⟩,
   (handleCreate_names (fun k => "sha256:" ++ k)
      { Auth := { ReadOnlyKeys := [{ Name := "ops", KeyHash := "h0" }] } }
      (.ok { Name := "new" }) (.ok [171]) (.ok ())).1 (by decide)⟩

end keyCreation

/-! ## Properties of password hashing -/

section passwords

open auth

theorem auth.hash_ok (P : bcrypt.Params) (saltRead : Except String (List Nat))
    (p h : String) (hhash : HashAdminPassword P saltRead p = .ok h) :
    ∃ salt, saltRead = .ok salt ∧ (strings.bytesOf p).length ≤ 72 ∧
      h = P.encode bcryptCost salt
        (P.digest (bcrypt.keyBytes (strings.bytesOf p)) bcryptCost salt) := by
  unfold HashAdminPassword bcrypt.GenerateFromPassword at hhash
  by_cases hl : (strings.bytesOf p).length > 72
  · simp [hl] at hhash
  · cases hs : saltRead with
    | error e => simp [hl, hs] at hhash
    | ok salt =>
      simp only [hl, if_false, hs, Except.ok.injEq] at hhash
      exact ⟨salt, rfl, by omega, hhash.symm⟩

theorem auth.verify_iff (P : bcrypt.Params) (m : Manager) (cost : Nat) (salt d : List Nat)
    (hdec : P.decode m.cfg.Auth.AdminPasswordHash = some (cost, salt, d)) (q : String) :
    m.VerifyAdminPassword P q = true ↔
      P.digest (bcrypt.keyBytes (strings.bytesOf q)) cost salt = d := by
  unfold Manager.VerifyAdminPassword bcrypt.CompareHashAndPassword
  rw [hdec]
  by_cases h : P.digest (bcrypt.keyBytes (strings.bytesOf q)) cost salt = d
  · simp [h]
  · simp [h]

theorem sample.bcrypt_codec (c : Nat) (s d : List Nat) :
    sample.bcryptParams.decode (sample.bcryptParams.encode c s d) = some (c, s, d) := by
  simp [sample.bcryptParams, sample.decode_encode]

/-- C26 fails as stated: bcrypt reads only 72 key bytes.  For the password of
72 letters `a` and the different password obtained by appending `b`, whatever
the digest function and the salt, a Manager holding the hash of the first
accepts the second. -/
theorem VerifyAdminPassword_counterexample :
    sample.password72 ≠ sample.password72 ++ "b" ∧
      (strings.bytesOf sample.password72).length = 72 ∧
      (∃ h, HashAdminPassword sample.bcryptParams (.ok [7]) sample.password72 = .ok h) ∧
      (∀ (P : bcrypt.Params) (saltRead : Except String (List Nat)) (h : String),
        (∀ c s d, P.decode (P.encode c s d) = some (c, s, d)) →
        HashAdminPassword P saltRead sample.password72 = .ok h →
        Manager.VerifyAdminPassword P { cfg := { Auth := { AdminPasswordHash := h } } }
          (sample.password72 ++ "b") = true) := by
  refine ⟨by decide, by decide, ⟨_, rfl⟩, ?_⟩
  intro P saltRead h hcodec hhash
  obtain ⟨salt, _, _, hh⟩ := auth.hash_ok P saltRead _ h hhash
  have hdec : P.decode (({ cfg := { Auth := { AdminPasswordHash := h } } } :
      Manager).cfg.Auth.AdminPasswordHash) = some (bcryptCost, salt,
        P.digest (bcrypt.keyBytes (strings.bytesOf sample.password72)) bcryptCost salt) := by
    show P.decode h = _
    rw [hh, hcodec]
  rw [auth.verify_iff P _ _ _ _ hdec]
  have hkey : bcrypt.keyBytes (strings.bytesOf (sample.password72 ++ "b")) =
      bcrypt.keyBytes (strings.bytesOf sample.password72) := by decide
  rw [hkey]

/-- C26 (amended): for every password `p` for which `HashAdminPassword(p)`
succeeds with hash `h`, a Manager whose stored admin hash is `h` has
`VerifyAdminPassword(p) == true`; `VerifyAdminPassword(q)` is false exactly
for the `q` whose bcrypt digest under the salt and cost of `h` differs from
that of `p`, and every `q` that gives bcrypt the same 72 key bytes as `p` is
accepted like `p`. -/
theorem VerifyAdminPassword_spec (P : bcrypt.Params) (saltRead : Except String (List Nat))
    (m : Manager) (p : String)
    (hcodec : ∀ c s d, P.decode (P.encode c s d) = some (c, s, d))
    (hhash : HashAdminPassword P saltRead p = .ok m.cfg.Auth.AdminPasswordHash) :
    m.VerifyAdminPassword P p = true ∧
      ∃ salt, saltRead = .ok salt ∧
        (∀ q, m.VerifyAdminPassword P q = false ↔
          P.digest (bcrypt.keyBytes (strings.bytesOf q)) bcryptCost salt ≠
            P.digest (bcrypt.keyBytes (strings.bytesOf p)) bcryptCost salt) ∧
        (∀ q, bcrypt.keyBytes (strings.bytesOf q) = bcrypt.keyBytes (strings.bytesOf p) →
          m.VerifyAdminPassword P q = true) := by
  obtain ⟨salt, hsalt, _, hh⟩ := auth.hash_ok P saltRead p _ hhash
  have hdec : P.decode m.cfg.Auth.AdminPasswordHash = some (bcryptCost, salt,
      P.digest (bcrypt.keyBytes (strings.bytesOf p)) bcryptCost salt) := by
    rw [hh, hcodec]
  have hiff := auth.verify_iff P m _ _ _ hdec
  refine ⟨(hiff p).mpr rfl, salt, hsalt, ?_, ?_⟩
  · intro q
    rw [Ne, ← hiff q]
    cases m.VerifyAdminPassword P q <;> simp
  · intro q hq
    rw [hiff q, hq]

/-- Instance of C26 (amended) with the sample parameters: the Manager holding
the hash of `correct horse battery` accepts it and refuses `wrong password`. -/
theorem VerifyAdminPassword_spec_witness :
    Manager.VerifyAdminPassword sample.bcryptParams
        { cfg := { Auth := { AdminPasswordHash := sample.adminHash } } }
        "correct horse battery" = true ∧
      Manager.VerifyAdminPassword sample.bcryptParams
        { cfg := { Auth := { AdminPasswordHash := sample.adminHash } } }
        "wrong password" = false :=
  have h := VerifyAdminPassword_spec sample.bcryptParams (.ok [7])
    { cfg := { Auth := { AdminPasswordHash := sample.adminHash } } } "correct horse battery"
    sample.bcrypt_codec rfl
  ⟨h.1, by
    obtain ⟨salt, hs, hq, _⟩ := h.2
    have hsalt : [7] = salt := Except.ok.inj hs
    subst hsalt
    rw [hq]
    decide⟩

end passwords

/-! ## Properties of the setup route -/

section setupRoute

open models middleware

/-- The route `/api/setup` as registered: in normal mode a request (other than
a CORS preflight) from a peer that is not a loopback address is refused with
403 `FORBIDDEN` and the configuration is unchanged, and one from a loopback
peer is passed to the setup handler; in setup mode a request from any peer is
passed to the setup handler. -/
theorem server.serveSetup_routing (B : bcrypt.Params) (P : config.Primitives)
    (fx : setup.Effects) (cfg : config.Config) (r : Request)
    (body : Except String setup.SetupRequest) (hm : r.Method ≠ "OPTIONS") :
    (isLocalhost r = false →
        server.serveSetup false B P fx cfg r body
          = (server.Served.refused 403
              (NewAPIError "FORBIDDEN" "This endpoint is only accessible from localhost"),
             cfg)) ∧
      (isLocalhost r = true →
        server.serveSetup false B P fx cfg r body
          = (server.Served.handled (setup.ServeHTTP B P fx cfg r body).1,
             (setup.ServeHTTP B P fx cfg r body).2)) ∧
      server.serveSetup true B P fx cfg r body
        = (server.Served.handled (setup.ServeHTTP B P fx cfg r body).1,
           (setup.ServeHTTP B P fx cfg r body).2) := by
  refine ⟨fun hl => ?_, fun hl => ?_, ?_⟩
  · simp [server.serveSetup, hm, LocalhostOnly, hl, StatusForbidden]
  · simp [server.serveSetup, hm, LocalhostOnly, hl]
  · simp [server.serveSetup, hm]

/-- In normal mode a submission from the peer `203.0.113.5:4000` is refused
with 403 and leaves the configuration as it was. -/
theorem server.serveSetup_routing_example :
    isLocalhost { Header := fun _ => "", RemoteAddr := "203.0.113.5:4000", Method := "POST" }
        = false ∧
      server.serveSetup false sample.bcryptParams sample.primitives sample.effects
          sample.configured
          { Header := fun _ => "", RemoteAddr := "203.0.113.5:4000", Method := "POST" }
          (.ok sample.setupRequest)
        = (server.Served.refused 403
            (NewAPIError "FORBIDDEN" "This endpoint is only accessible from localhost"),
           sample.configured) :=
  ⟨by decide,
   (server.serveSetup_routing sample.bcryptParams sample.primitives sample.effects
      sample.configured
      { Header := fun _ => "", RemoteAddr := "203.0.113.5:4000", Method := "POST" }
      (.ok sample.setupRequest) (by decide)).1 (by decide)⟩

/-- The setup handler has no test for an existing configuration: whatever the
configuration holds, a submission that passes `validateSetupRequest` and whose
hashing, encryption and saving succeed is answered 200 and replaces the
database settings and the administrator hash. -/
theorem setup.handleSubmit_accepts (B : bcrypt.Params) (P : config.Primitives)
    (fx : setup.Effects) (cfg : config.Config) (req : setup.SetupRequest)
    (hash encPass : String)
    (hv : setup.validateSetupRequest req = none)
    (hh : auth.HashAdminPassword B fx.saltRead req.AdminPassword = .ok hash)
    (he : config.EncryptPassword P fx.machineID fx.nonceRead req.DBPassword = .ok encPass)
    (hs : fx.save = .ok ()) :
    (setup.handleSubmit B P fx cfg (.ok req)).1
        = setup.Response.done 200 "Setup complete. Restarting…" ∧
      (setup.handleSubmit B P fx cfg (.ok req)).2.Auth.AdminPasswordHash = hash ∧
      (setup.handleSubmit B P fx cfg (.ok req)).2.Database
        = { Host := req.DBHost, Port := req.DBPort, Name := req.DBName, User := req.DBUser,
            Password := encPass } := by
  unfold setup.handleSubmit
  simp only [hv, hh, he, hs]
  refine ⟨?_, ?_, ?_⟩
  · trivial
  · split_ifs <;> rfl
  · split_ifs <;> rfl

/-- C27, the code at the failing input: the server runs in normal mode with a
loaded configuration (database host `olddb`, administrator hash `old-hash`)
and receives a valid `POST /api/setup` from the loopback peer
`127.0.0.1:5000`.  The claim says the setup handler rejects the submission and
leaves the configuration unchanged; the handler answers 200, replaces the
database settings and replaces the administrator hash by one that accepts the
submitted password.  In setup mode the same submission from the non-loopback
peer `203.0.113.5:4000`, which the claim says is refused, is served with 200
as well. -/
theorem serveSetup_overwrites_configuration :
    sample.configured.Database.Host = "olddb" ∧
      sample.configured.Auth.AdminPasswordHash = "old-hash" ∧
      isLocalhost { Header := fun _ => "", RemoteAddr := "127.0.0.1:5000", Method := "POST" }
        = true ∧
      (server.serveSetup false sample.bcryptParams sample.primitives sample.effects
          sample.configured
          { Header := fun _ => "", RemoteAddr := "127.0.0.1:5000", Method := "POST" }
          (.ok sample.setupRequest)).1
        = server.Served.handled (setup.Response.done 200 "Setup complete. Restarting…") ∧
      (server.serveSetup false sample.bcryptParams sample.primitives sample.effects
          sample.configured
          { Header := fun _ => "", RemoteAddr := "127.0.0.1:5000", Method := "POST" }
          (.ok sample.setupRequest)).2.Database.Host = "db" ∧
      (server.serveSetup false sample.bcryptParams sample.primitives sample.effects
          sample.configured
          { Header := fun _ => "", RemoteAddr := "127.0.0.1:5000", Method := "POST" }
          (.ok sample.setupRequest)).2.Auth.AdminPasswordHash ≠ "old-hash" ∧
      auth.Manager.VerifyAdminPassword sample.bcryptParams
          { cfg := (server.serveSetup false sample.bcryptParams sample.primitives
              sample.effects sample.configured
              { Header := fun _ => "", RemoteAddr := "127.0.0.1:5000", Method := "POST" }
              (.ok sample.setupRequest)).2 }
          "twelve chars" = true ∧
      isLocalhost { Header := fun _ => "", RemoteAddr := "203.0.113.5:4000", Method := "POST" }
        = false ∧
      (server.serveSetup true sample.bcryptParams sample.primitives sample.effects {}
          { Header := fun _ => "", RemoteAddr := "203.0.113.5:4000", Method := "POST" }
          (.ok sample.setupRequest)).1
        = server.Served.handled (setup.Response.done 200 "Setup complete. Restarting…") := by
  refine ⟨rfl, rfl, by decide, by rfl, by rfl, by decide, ?_, by decide, by rfl⟩
  decide

end setupRoute

end Rsyslox
